import Mathlib

/-!
Report encoding of radiosh, the shell control for the Griffin radioSHARK v1/v2:
a shallow embedding of `src/radiosh.c`.

Conventions of the embedding

* `char` is a signed 8-bit integer, `int` a 32-bit two's complement integer
  and `long` a 64-bit one (x86-64 macOS); values are kept in `Int` and wrapped
  explicitly by `toChar` / `toInt32`.  Where the C standard leaves a result
  undefined (an `atoi` value or a floating-point value outside the range of
  `int`, signed overflow) the model takes what that target does, and says so
  at the definition.
* A HID report is the list of its bytes, each an unsigned value below 256.
* The global `mode` (0 = radioSHARK v1, non-zero = radioSHARK v2) is passed as
  a parameter.  The global `verbose` is written once and never read, so it is
  not represented.
* Everything the program does to the outside world is appended to a trace of
  `Event`s; the device answers a `setReport` call through an oracle that sees
  the reports submitted before it.
-/

namespace Radiosh

/-! ## Machine integers -/

/-- Conversion of an integer value to `char` (signed, 8 bits, wrapping). -/
def toChar (x : Int) : Int := (x + 128) % 256 - 128

/-- The byte stored in memory for an integer value put in a `char` slot. -/
def toByte (x : Int) : Nat := (x % 256).toNat

/-- Conversion of an integer value to `int` (signed, 32 bits, wrapping). -/
def toInt32 (x : Int) : Int := (x + 2147483648) % 4294967296 - 2147483648

/-- The 32-bit two's complement pattern of an `int`. -/
def bits32 (x : Int) : Nat := (x % 4294967296).toNat

/-- The C expression `(arg >> 8) & 0xff` on an `int`, read off its bit pattern. -/
def hiByte (arg : Int) : Nat := (bits32 arg >>> 8) &&& 0xff

/-- The C expression `arg & 0xff` on an `int`, read off its bit pattern. -/
def loByte (arg : Int) : Nat := bits32 arg &&& 0xff

/-! ## Data model -/

/-- The struct `rsSettings`: three light fields and the band are `char`
(negative = not requested), the two frequency bytes are `unsigned char`. -/
structure rsSettings where
  fBlueLightLevel : Int
  fBlueLightPulse : Int
  fRedLightLevel : Int
  fRadioBand : Int
  fRadioFreqHi : Nat
  fRadioFreqLo : Nat
  deriving DecidableEq, Repr

/-- What the program does to the outside world, in order. -/
inductive Event where
  /-- The usage text was written to stderr by `_printUsage`. -/
  | usage
  /-- A diagnostic written to stderr: its format string and its arguments. -/
  | stderr (fmt : String) (args : List Int)
  /-- A matching dictionary was requested for a device version. -/
  | matching (version : Nat)
  /-- The I/O registry was searched with the dictionary of a device version. -/
  | probe (version : Nat)
  /-- The HID plug-in interface of the found service was requested. -/
  | plugIn
  /-- The HID interface was opened. -/
  | hidOpen
  /-- An output report was submitted with `setReport`. -/
  | report (bytes : List Nat)
  /-- The HID interface was closed. -/
  | hidClose
  /-- The HID interface was released. -/
  | hidRelease
  /-- The service object was released. -/
  | serviceRelease
  deriving DecidableEq, Repr

/-- The reports submitted so far, oldest first. -/
def sent : List Event → List (List Nat)
  | [] => []
  | Event.report b :: rest => b :: sent rest
  | _ :: rest => sent rest

/-- The HID device behind `setReport`: the status it answers to a report, given
the reports submitted before. -/
structure Device where
  setReport : List (List Nat) → List Nat → Int

def KERN_SUCCESS : Int := 0

def KERN_INVALID_ARGUMENT : Int := 4

/-- The call `(*hidInterface)->setReport(hidInterface, kIOHIDReportTypeOutput, 0,
report, sizeof(report), 1000, NULL, NULL, NULL)`. -/
def setReport (dev : Device) (tr : List Event) (report : List Nat) : Int × List Event :=
  (dev.setReport (sent tr) report, tr ++ [Event.report report])

/-! ## The four setters -/

def _setBlueLight (mode : Int) (dev : Device) (tr : List Event) (level : Int) :
    Int × List Event :=
  if mode ≠ 0 then
    let report : List Nat := [toByte 0x83, toByte level, 0, 0, 0, 0, 0]
    if level < 0 then (KERN_SUCCESS, tr)
    else setReport dev tr report
  else
    let report : List Nat := [toByte 0xa0, toByte level, 0, 0, 0, 0]
    if level < 0 then (KERN_SUCCESS, tr)
    else setReport dev tr report

def _setBluePulse (mode : Int) (dev : Device) (tr : List Event) (level : Int) :
    Int × List Event :=
  if mode ≠ 0 then
    if level < 0 then (KERN_SUCCESS, tr)
    else
      (KERN_INVALID_ARGUMENT,
        tr ++ [Event.stderr "Oops: pulsing not supported on v2 devices.\n" []])
  else
    let report : List Nat := [toByte 0xa1, toByte level, 0, 0, 0, 0]
    if level < 0 then (KERN_SUCCESS, tr)
    else setReport dev tr report

def _setRedLight (mode : Int) (dev : Device) (tr : List Event) (level : Int) :
    Int × List Event :=
  if mode ≠ 0 then
    let report : List Nat := [toByte 0x84, toByte level, 0, 0, 0, 0, 0]
    if level < 0 then (KERN_SUCCESS, tr)
    else setReport dev tr report
  else
    let report : List Nat := [toByte (if level > 0 then 0xa9 else 0xa8), 0, 0, 0, 0, 0]
    if level < 0 then (KERN_SUCCESS, tr)
    else setReport dev tr report

def _setRadio (mode : Int) (dev : Device) (tr : List Event) (settings : rsSettings) :
    Int × List Event :=
  if mode ≠ 0 then
    let report : List Nat :=
      [toByte 0x81, settings.fRadioFreqHi % 256, settings.fRadioFreqLo % 256,
        toByte (if settings.fRadioBand = 0x24 then 0xf3 else 0x33),
        toByte (if settings.fRadioBand = 0x24 then 0x36 else 0x04),
        toByte 0x00,
        toByte settings.fRadioBand]
    if settings.fRadioBand < 0 then (KERN_SUCCESS, tr)
    else setReport dev tr report
  else
    let report : List Nat :=
      [toByte 0xc0, toByte settings.fRadioBand, settings.fRadioFreqHi % 256,
        settings.fRadioFreqLo % 256, 0, 0]
    if settings.fRadioBand < 0 then (KERN_SUCCESS, tr)
    else setReport dev tr report

/-! ## C library: character classes and `atoi`

`atoi(s)` is `(int)strtol(s, NULL, 10)`: white space is skipped, an optional
sign is read, then the longest run of decimal digits; `strtol` saturates at the
bounds of `long` (64 bits) and the conversion to `int` wraps. -/

abbrev CStr := List Char

def isdigit (c : Char) : Bool := '0'.toNat ≤ c.toNat && c.toNat ≤ '9'.toNat

def isspace (c : Char) : Bool :=
  c == ' ' || c == '\t' || c == '\n' || c.toNat == 11 || c.toNat == 12 || c == '\r'

/-- Value of a decimal digit character. -/
def decDigit (c : Char) : Option Nat :=
  if isdigit c then some (c.toNat - '0'.toNat) else none

/-- Value of a hexadecimal digit character. -/
def hexDigit (c : Char) : Option Nat :=
  if isdigit c then some (c.toNat - '0'.toNat)
  else if 'a'.toNat ≤ c.toNat && c.toNat ≤ 'f'.toNat then some (c.toNat - 'a'.toNat + 10)
  else if 'A'.toNat ≤ c.toNat && c.toNat ≤ 'F'.toNat then some (c.toNat - 'A'.toNat + 10)
  else none

/-- Reads the longest run of digits: returns the accumulated value, the number
of digits read and the unread rest. -/
def scanDigits (digit : Char → Option Nat) (base : Nat) :
    CStr → Nat → Nat → Nat × Nat × CStr
  | [], acc, cnt => (acc, cnt, [])
  | c :: rest, acc, cnt =>
    match digit c with
    | some d => scanDigits digit base rest (acc * base + d) (cnt + 1)
    | none => (acc, cnt, c :: rest)

def skipSpace : CStr → CStr
  | [] => []
  | c :: rest => if isspace c then skipSpace rest else c :: rest

/-- An optional sign: whether it was a minus, and the rest. -/
def scanSign : CStr → Bool × CStr
  | '-' :: rest => (true, rest)
  | '+' :: rest => (false, rest)
  | s => (false, s)

def LONG_MAX : Int := 9223372036854775807

def LONG_MIN : Int := -9223372036854775808

def strtol10 (s : CStr) : Int :=
  let (neg, t) := scanSign (skipSpace s)
  let (v, _, _) := scanDigits decDigit 10 t 0 0
  let x : Int := if neg then -(v : Int) else (v : Int)
  if x < LONG_MIN then LONG_MIN else if LONG_MAX < x then LONG_MAX else x

def atoi (s : CStr) : Int := toInt32 (strtol10 s)

/-! ## Floating point

A finite `float` or `double` is kept as the integer `k` with value
`k / 2^1074`: every finite binary32 and binary64 number is such a multiple.
The sign of zero is not represented (it cannot be observed through a
conversion to `int`).  Arithmetic is IEEE 754 with round-to-nearest-even, each
operation rounded once to the format of its C type. -/

@[irreducible] def SCALE : Nat := 2 ^ 1074

inductive FVal where
  | fin (k : Int)
  | inf (neg : Bool)
  | nan
  deriving DecidableEq, Repr

structure Format where
  prec : Nat
  emin : Int
  emax : Int

def binary32 : Format := ⟨24, -126, 127⟩

def binary64 : Format := ⟨53, -1022, 1023⟩

def bitLenAux : Nat → Nat → Nat
  | 0, _ => 0
  | fuel + 1, n => if n = 0 then 0 else bitLenAux fuel (n / 2) + 1

/-- Number of binary digits of `n`. -/
def bitLen (n : Nat) : Nat := bitLenAux n n

/-- The power `2^e` for `e ≥ 0`, and `1` for a negative `e`. -/
def pow2 (e : Int) : Nat := 2 ^ e.toNat

/-- The integer `⌊log2 (n/d)⌋` for positive `n` and `d`. -/
def ilog2 (n d : Nat) : Int :=
  let k : Int := (bitLen n : Int) - (bitLen d : Int)
  if d * pow2 k ≤ n * pow2 (-k) then k else k - 1

/-- The positive rational `n/d` divided by `2^q` and rounded to the nearest
integer, ties to even. -/
def roundQuot (n d : Nat) (q : Int) : Nat :=
  let N := n * pow2 (-q)
  let D := d * pow2 q
  let qt := N / D
  let r := N % D
  if 2 * r < D then qt
  else if D < 2 * r then qt + 1
  else if qt % 2 = 0 then qt else qt + 1

/-- Rounds the positive rational `n/d` to a format; `none` is overflow. -/
def roundPos (fmt : Format) (n d : Nat) : Option Nat :=
  let e := ilog2 n d
  let q := max e fmt.emin - ((fmt.prec : Int) - 1)
  let k := roundQuot n d q * pow2 (q + 1074)
  if k < pow2 (fmt.emax + 1 + 1074) then some k else none

/-- Rounds the rational `n/d` (`d > 0`) to a format. -/
def roundTo (fmt : Format) (n : Int) (d : Nat) : FVal :=
  if n = 0 then FVal.fin 0
  else
    match roundPos fmt n.natAbs d with
    | some k => FVal.fin (if n < 0 then -(k : Int) else (k : Int))
    | none => FVal.inf (decide (n < 0))

def fneg : FVal → FVal
  | FVal.fin k => FVal.fin (-k)
  | FVal.inf s => FVal.inf (!s)
  | FVal.nan => FVal.nan

def fmul (fmt : Format) : FVal → FVal → FVal
  | FVal.fin a, FVal.fin b => roundTo fmt (a * b) (SCALE * SCALE)
  | FVal.inf s, FVal.fin b => if b = 0 then FVal.nan else FVal.inf (s != decide (b < 0))
  | FVal.fin a, FVal.inf s => if a = 0 then FVal.nan else FVal.inf (s != decide (a < 0))
  | FVal.inf s, FVal.inf t => FVal.inf (s != t)
  | _, _ => FVal.nan

def fadd (fmt : Format) : FVal → FVal → FVal
  | FVal.fin a, FVal.fin b => roundTo fmt (a + b) SCALE
  | FVal.inf s, FVal.fin _ => FVal.inf s
  | FVal.fin _, FVal.inf s => FVal.inf s
  | FVal.inf s, FVal.inf t => if s = t then FVal.inf s else FVal.nan
  | _, _ => FVal.nan

def fsub (fmt : Format) (a b : FVal) : FVal := fadd fmt a (fneg b)

/-- Division; the divisor of the program is the non-zero constant 12.5, a zero
divisor is taken as positive zero. -/
def fdiv (fmt : Format) : FVal → FVal → FVal
  | FVal.fin a, FVal.fin b =>
    if b = 0 then (if a = 0 then FVal.nan else FVal.inf (decide (a < 0)))
    else roundTo fmt (if b < 0 then -a else a) b.natAbs
  | FVal.inf s, FVal.fin b => FVal.inf (s != decide (b < 0))
  | FVal.fin _, FVal.inf _ => FVal.fin 0
  | _, _ => FVal.nan

/-- An integer constant or value converted to a floating type. -/
def ofInt (fmt : Format) (n : Int) : FVal := roundTo fmt n 1

/-- The conversion `(float)d` of a `double`. -/
def d2f : FVal → FVal
  | FVal.fin k => roundTo binary32 k SCALE
  | x => x

/-- The promotion of a `float` to `double`: exact, every binary32 value is a
binary64 value. -/
def f2d (x : FVal) : FVal := x

def INT_MIN : Int := -2147483648

/-- Conversion of a `float` or `double` to `int`: truncation toward zero; a
value outside the range of `int`, an infinity or a NaN gives `INT_MIN`, as the
x86 conversion instructions do (the C standard leaves it undefined). -/
def toInt : FVal → Int
  | FVal.fin k =>
    let t : Int := if k < 0 then -((k.natAbs / SCALE : Nat) : Int) else ((k.natAbs / SCALE : Nat) : Int)
    if INT_MIN ≤ t ∧ t < 2147483648 then t else INT_MIN
  | _ => INT_MIN


/-! ## C library: `atof`

`atof(s)` is `strtod(s, NULL)` in the C locale: white space, an optional sign,
then `inf`/`infinity`/`nan` in any case, a hexadecimal floating constant, or a
decimal one (digits with an optional point, then an optional exponent that
counts only when it has a digit).  The value is rounded once to binary64.  A
text with no number in front gives zero. -/

def lower (c : Char) : Char :=
  if 'A'.toNat ≤ c.toNat && c.toNat ≤ 'Z'.toNat then Char.ofNat (c.toNat + 32) else c

/-- Whether the text starts with a word, case ignored. -/
def startsWithWord : CStr → CStr → Bool
  | _, [] => true
  | [], _ :: _ => false
  | c :: s, w :: ws => lower c == w && startsWithWord s ws

/-- A mantissa in some base: the digits around an optional point.  Returns the
number made of all the digits, how many followed the point, how many digits
there were, and the rest. -/
def scanMantissa (digit : Char → Option Nat) (base : Nat) (s : CStr) :
    Nat × Nat × Nat × CStr :=
  let (m1, c1, r1) := scanDigits digit base s 0 0
  match r1 with
  | '.' :: r2 =>
    let (m2, c2, r3) := scanDigits digit base r2 m1 0
    if c1 + c2 = 0 then (0, 0, 0, s) else (m2, c2, c1 + c2, r3)
  | _ => (m1, 0, c1, r1)

/-- An optional exponent part after its letter: a sign and at least one decimal
digit; `0` when there is none. -/
def scanExponent (s : CStr) : Int :=
  let (neg, t) := scanSign s
  let (v, cnt, _) := scanDigits decDigit 10 t 0 0
  if cnt = 0 then 0 else if neg then -(v : Int) else (v : Int)

/-- The rational `m * b^x` as a fraction. -/
def scaled (m : Nat) (b : Nat) (x : Int) : Nat × Nat :=
  if 0 ≤ x then (m * b ^ x.toNat, 1) else (m, b ^ (-x).toNat)

/-- The magnitude read by `strtod` after the sign, as a fraction; `none` when
the text is an infinity, and a fraction `0/1` when there is no number. -/
def scanMagnitude (s : CStr) : Option (Option (Nat × Nat)) :=
  if startsWithWord s ['i', 'n', 'f'] then some none
  else if startsWithWord s ['n', 'a', 'n'] then none
  else
    let hex : Option (Nat × Nat × Nat × CStr) :=
      match s with
      | '0' :: x :: t =>
        if lower x == 'x' then
          let r := scanMantissa hexDigit 16 t
          if r.2.2.1 = 0 then none else some r
        else none
      | _ => none
    match hex with
    | some (m, frac, _, rest) =>
      let x : Int :=
        match rest with
        | e :: t => if lower e == 'p' then scanExponent t else 0
        | [] => 0
      some (some (scaled m 2 (x - 4 * (frac : Int))))
    | none =>
      let (m, frac, cnt, rest) := scanMantissa decDigit 10 s
      if cnt = 0 then some (some (0, 1))
      else
        let x : Int :=
          match rest with
          | e :: t => if lower e == 'e' then scanExponent t else 0
          | [] => 0
        some (some (scaled m 10 (x - (frac : Int))))

def atof (s : CStr) : FVal :=
  let (neg, t) := scanSign (skipSpace s)
  match scanMagnitude t with
  | none => FVal.nan
  | some none => FVal.inf neg
  | some (some (n, d)) => roundTo binary64 (if neg then -(n : Int) else (n : Int)) d


/-! ## C library: `getopt`

POSIX `getopt` as macOS implements it (no permutation of the arguments): the
scan starts at `argv[1]` and stops at the first argument that is not an option
(no leading `-`, or `-` alone) or after `--`.  A character that is not in the
option string, or an option whose argument is missing, is returned as `?`.
The model lists the successive return values of the calls up to the one that
returns `-1`, each with the `optarg` it sets (empty when the option takes no
argument). -/

/-- Looks an option character up in the option string: `none` when it is not
an option, otherwise whether it takes an argument. -/
def optLookup : CStr → Char → Option Bool
  | [], _ => none
  | o :: rest, c =>
    if c == ':' then none
    else if o == c then
      some (match rest with
        | ':' :: _ => true
        | _ => false)
    else optLookup rest c

/-- The calls of `getopt` that scan one argument after its `-`; `next` is the
following argument, if any.  Returns the values returned and whether the
following argument was taken as an option argument. -/
def getoptCluster (ostr : CStr) (next : Option CStr) : CStr → List (Char × CStr) × Bool
  | [] => ([], false)
  | c :: place =>
    match optLookup ostr c with
    | none =>
      let r := getoptCluster ostr next place
      (('?', []) :: r.1, r.2)
    | some false =>
      let r := getoptCluster ostr next place
      ((c, []) :: r.1, r.2)
    | some true =>
      match place with
      | _ :: _ => ([(c, place)], false)
      | [] =>
        match next with
        | some a => ([(c, a)], true)
        | none => ([('?', [])], false)

/-- The values returned by the successive calls of `getopt` over the arguments
that follow `argv[0]`; `skip` tells that the first of them was already taken
as an option argument. -/
def getoptFrom (ostr : CStr) : Bool → List CStr → List (Char × CStr)
  | _, [] => []
  | true, _ :: rest => getoptFrom ostr false rest
  | false, a :: rest =>
    match a with
    | '-' :: c :: more =>
      if c == '-' && more.isEmpty then []
      else
        let r := getoptCluster ostr rest.head? (c :: more)
        r.1 ++ getoptFrom ostr r.2 rest
    | _ => []

def getopt (argv : List CStr) (ostr : CStr) : List (Char × CStr) :=
  getoptFrom ostr false argv.tail

/-! ## Argument parsing -/

/-- The function `_atoi`; `none` stands for the call of `_printUsage`, which
prints the usage text and ends the process with `exit(1)`. -/
def _atoi (s : CStr) : Option Int :=
  match s with
  | c :: _ => if isdigit c then some (atoi s) else none
  | [] => none

/-- The expression `arg < 0 ? 0 : arg > 127 ? 127 : arg`. -/
def clampLevel (arg : Int) : Int := if arg < 0 then 0 else if arg > 127 then 127 else arg

/-- The `int` computed for `-a` from the value returned by `_atoi`. -/
def amArg (mode : Int) (k : Int) : Int :=
  if mode ≠ 0 then toInt32 (toInt32 (k * 4) + 16300) else toInt32 (k + 450)

/-- The `float` expression `(freq * 10 * 2) - 3` of the v2 branch of `-f`. -/
def fmFloatV2 (freq : FVal) : FVal :=
  fsub binary32
    (fmul binary32 (fmul binary32 freq (ofInt binary32 10)) (ofInt binary32 2))
    (ofInt binary32 3)

/-- The expression `((freq * 1000) + 10700) / 12.5` of the v1 branch of `-f`:
product and sum in `float`, then the division by the `double` 12.5 in
`double`. -/
def fmFloatV1 (freq : FVal) : FVal :=
  fdiv binary64
    (f2d (fadd binary32 (fmul binary32 freq (ofInt binary32 1000)) (ofInt binary32 10700)))
    (roundTo binary64 25 2)

/-- The `int` computed for `-f` from the `float` read by `atof`: the
floating-point expression converted to `int`, and on v1 the statement
`arg += 3` after it. -/
def fmArg (mode : Int) (freq : FVal) : Int :=
  if mode ≠ 0 then toInt (fmFloatV2 freq)
  else
    let arg := toInt (fmFloatV1 freq)
    toInt32 (arg + 3)

/-- What one pass through the body of the `switch` leads to. -/
inductive Step where
  /-- The `break`: the loop goes on with these settings and this output. -/
  | next (settings : rsSettings) (out : List Event)
  /-- The call of `_printUsage`: usage text, then `exit(1)`. -/
  | usageExit
  /-- The statement `return 0`. -/
  | return0
  deriving DecidableEq, Repr

/-- The body of the `switch (opt)` of `_parseArguments`. -/
def parseCase (mode : Int) (opt : Char) (optarg : CStr) (settings : rsSettings) : Step :=
  if opt = 'v' then
    Step.next settings
      [Event.stderr
        (if mode ≠ 0 then "radioSHARK version detected: v2\n"
          else "radioSHARK version detected: v1\n") []]
  else if opt = 'b' then
    match _atoi optarg with
    | none => Step.usageExit
    | some arg =>
      Step.next { settings with fBlueLightLevel := toChar (clampLevel arg) } []
  else if opt = 'p' then
    match _atoi optarg with
    | none => Step.usageExit
    | some arg =>
      Step.next { settings with fBlueLightPulse := toChar (clampLevel arg) } []
  else if opt = 'r' then
    match _atoi optarg with
    | none => Step.usageExit
    | some arg =>
      Step.next { settings with fRedLightLevel := toChar (clampLevel arg) } []
  else if opt = 'a' then
    match _atoi optarg with
    | none => Step.usageExit
    | some k =>
      let arg := amArg mode k
      Step.next
        { settings with
          fRadioBand := if mode ≠ 0 then 0x24 else 0x12
          fRadioFreqHi := hiByte arg
          fRadioFreqLo := loByte arg } []
  else if opt = 'f' then
    match optarg with
    | c :: _ =>
      if isdigit c then
        let freq := d2f (atof optarg)
        let arg := fmArg mode freq
        Step.next
          { settings with
            fRadioBand := if mode ≠ 0 then 0x28 else 0x00
            fRadioFreqHi := hiByte arg
            fRadioFreqLo := loByte arg } []
      else Step.usageExit
    | [] => Step.usageExit
  else if opt = '?' ∨ opt = 'h' then Step.usageExit
  else Step.return0

/-- How `_parseArguments` ends. -/
inductive Parsed where
  /-- It returned `value`, leaving `settings`, having written `out`. -/
  | ret (value : Int) (settings : rsSettings) (out : List Event)
  /-- It ended the process with `exit(1)` after writing `out`, the usage text
  last. -/
  | exit (out : List Event)
  deriving DecidableEq, Repr

/-- The `while ((opt = getopt(...)) != -1)` loop over the values `getopt` returns. -/
def parseLoop (mode : Int) : List (Char × CStr) → rsSettings → List Event → Parsed
  | [], settings, out => Parsed.ret 1 settings out
  | (opt, optarg) :: rest, settings, out =>
    match parseCase mode opt optarg settings with
    | Step.next settings1 out1 => parseLoop mode rest settings1 (out ++ out1)
    | Step.usageExit => Parsed.exit (out ++ [Event.usage])
    | Step.return0 => Parsed.ret 0 settings out

def optstring : CStr := "b:p:r:a:f:?hv".toList

/-- The function `_parseArguments`; `argc` is the length of `argv`, and
`settings` is the address of a local of `main`, never null. -/
def _parseArguments (mode : Int) (argv : List CStr) (settings : rsSettings) : Parsed :=
  if argv.length < 2 then Parsed.ret 0 settings []
  else parseLoop mode (getopt argv optstring) settings []


/-! ## Device discovery and `main` -/

def kRadioSharkv1Version : Nat := 0x0001

def kRadioSharkv2Version : Nat := 0x0010

/-- The answers of the operating system and of the device during one run. -/
structure Env where
  /-- Whether `IOServiceMatching` gives a dictionary, by device version asked. -/
  dictionary : Nat → Bool
  /-- Whether `IOServiceGetMatchingService` finds a device of that version. -/
  service : Nat → Bool
  /-- Result of `IOCreatePlugInInterfaceForService`. -/
  plugInResult : Int
  /-- Whether that call left a non-null plug-in interface. -/
  plugInPresent : Bool
  /-- Result of `QueryInterface` on the plug-in. -/
  queryResult : Int
  /-- Whether `QueryInterface` left a non-null HID interface. -/
  queryPresent : Bool
  /-- Result of opening the HID interface. -/
  openResult : Int
  /-- The device behind the interface. -/
  device : Device

/-- The function `_getMatchingDictionary`: whether its result is non-null. -/
def _getMatchingDictionary (env : Env) (version : Nat) : Bool := env.dictionary version

/-- The function `_getIOService`: whether its result is non-null. -/
def _getIOService (env : Env) (version : Nat) (matchingDict : Bool) : Bool :=
  if !matchingDict then false else env.service version

/-- The function `_getHIDInterface`: whether its result is non-null. -/
def _getHIDInterface (env : Env) (service : Bool) : Bool :=
  if !service then false
  else if env.plugInResult = KERN_SUCCESS ∧ env.plugInPresent = true then
    if env.queryResult ≠ KERN_SUCCESS then false else env.queryPresent
  else false

/-- How a run of `main` ends: the value returned (or passed to `exit`) and all
it did. -/
structure Outcome where
  exit : Int
  trace : List Event
  deriving DecidableEq, Repr

/-- The initializer `{ -1, -1, -1, -1, 0, 0 }` of `settings` in `main`. -/
def initialSettings : rsSettings := ⟨-1, -1, -1, -1, 0, 0⟩

/-- The test `argc == 1 || (argc == 2 && argv[1][0] == '-' && argv[1][1] == 'v')`. -/
def emptyInvocation (argv : List CStr) : Bool :=
  match argv with
  | [_] => true
  | [_, '-' :: 'v' :: _] => true
  | _ => false

/-- Lines 336-351 of `main`: open the interface, run the four setters, each
under `KDAMMIT` (which stores the status in `result` and returns -1 when it is
not `KERN_SUCCESS`), then close and release. -/
def mainTransmit (mode : Int) (env : Env) (tr : List Event) (settings : rsSettings) :
    Outcome :=
  let tr0 := tr ++ [Event.hidOpen]
  if env.openResult ≠ KERN_SUCCESS then
    ⟨-1, tr0 ++ [Event.stderr
      "IOError: Could open the HID interface of the radioSHARK device (%d)\n"
      [env.openResult]]⟩
  else
    let r1 := _setBlueLight mode env.device tr0 settings.fBlueLightLevel
    if r1.1 ≠ KERN_SUCCESS then
      ⟨-1, r1.2 ++ [Event.stderr "IOError: Setting the blue light failed (%d)\n" [r1.1]]⟩
    else
      let r2 := _setBluePulse mode env.device r1.2 settings.fBlueLightPulse
      if r2.1 ≠ KERN_SUCCESS then
        ⟨-1, r2.2 ++
          [Event.stderr "IOError: Setting the blue light pulse failed (%d)\n" [r2.1]]⟩
      else
        let r3 := _setRedLight mode env.device r2.2 settings.fRedLightLevel
        if r3.1 ≠ KERN_SUCCESS then
          ⟨-1, r3.2 ++ [Event.stderr "IOError: Setting the red light failed (%d)\n" [r3.1]]⟩
        else
          let r4 := _setRadio mode env.device r3.2 settings
          if r4.1 ≠ KERN_SUCCESS then
            ⟨-1, r4.2 ++ [Event.stderr "IOError: Setting the radio failed (%d)\n" [r4.1]]⟩
          else
            ⟨0, r4.2 ++ [Event.hidClose, Event.hidRelease, Event.serviceRelease]⟩

/-- Lines 328-351 of `main`, once the service is found and `mode` is set. -/
def mainWithService (mode : Int) (env : Env) (tr : List Event) (argv : List CStr) :
    Outcome :=
  let tr := tr ++ [Event.plugIn]
  if !_getHIDInterface env true then
    ⟨-1, tr ++ [Event.stderr
      "IOError: Could find the HID interface of the radioSHARK device\n" []]⟩
  else
    match _parseArguments mode argv initialSettings with
    | Parsed.exit out => ⟨1, tr ++ out⟩
    | Parsed.ret value settings out =>
      if value = 0 then ⟨1, tr ++ out ++ [Event.usage]⟩
      else mainTransmit mode env (tr ++ out) settings

/-- How the search for a device ends. -/
inductive Located where
  /-- A device was found; `mode` is set accordingly. -/
  | found (mode : Int) (tr : List Event)
  /-- A `DAMMIT` made `main` return. -/
  | failed (out : Outcome)

/-- Lines 319-327 of `main`: look for a v1 device, then for a v2 device. -/
def locateDevice (env : Env) : Located :=
  let tr := [Event.matching kRadioSharkv1Version]
  if !_getMatchingDictionary env kRadioSharkv1Version then
    Located.failed ⟨-1, tr ++ [Event.stderr
      "InternalError: Could not create io service matching dictionary v1\n" []]⟩
  else
    let tr := tr ++ [Event.probe kRadioSharkv1Version]
    if _getIOService env kRadioSharkv1Version true then Located.found 0 tr
    else
      let tr := tr ++ [Event.matching kRadioSharkv2Version]
      if !_getMatchingDictionary env kRadioSharkv2Version then
        Located.failed ⟨-1, tr ++ [Event.stderr
          "InternalError: Could not create io service matching dictionary v2\n" []]⟩
      else
        let tr := tr ++ [Event.probe kRadioSharkv2Version]
        if !_getIOService env kRadioSharkv2Version true then
          Located.failed ⟨-1, tr ++ [Event.stderr
            "IOError: Could not find attached radioSHARK v1 or v2 device\n" []]⟩
        else Located.found 1 tr

def main (env : Env) (argv : List CStr) : Outcome :=
  if emptyInvocation argv then ⟨1, [Event.usage]⟩
  else
    match locateDevice env with
    | Located.failed out => out
    | Located.found mode tr => mainWithService mode env tr argv

/-! ## The specification's formulas, for comparison -/

/-- The rational value of the finite floating-point number stored as `k`. -/
def valueOf (k : Int) : ℚ := (k : ℚ) / (SCALE : ℚ)

/-- The specification's tuner word for FM on RevisionOne:
`round((MHz*1000 + 10700) / 12.5) + 3`, rounding to the nearest integer. -/
def specFmRawV1 (mhz : ℚ) : Int := round ((mhz * 1000 + 10700) / (25 / 2)) + 3

/-- The specification's tuner word for FM on RevisionTwo:
`round(MHz*10*2) - 3`, rounding to the nearest integer. -/
def specFmRawV2 (mhz : ℚ) : Int := round (mhz * 10 * 2) - 3

/-- The blue-level report of each revision, per the specification's table. -/
def blueLevelReport (mode : Int) (level : Int) : List Nat :=
  if mode ≠ 0 then [0x83, toByte level, 0, 0, 0, 0, 0] else [0xA0, toByte level, 0, 0, 0, 0]

/-- The blue-pulse report (RevisionOne only), per the specification's table. -/
def bluePulseReport (level : Int) : List Nat := [0xA1, toByte level, 0, 0, 0, 0]

/-- The red-level report of each revision, per the specification's table. -/
def redLevelReport (mode : Int) (level : Int) : List Nat :=
  if mode ≠ 0 then [0x84, toByte level, 0, 0, 0, 0, 0]
  else if level > 0 then [0xA9, 0, 0, 0, 0, 0] else [0xA8, 0, 0, 0, 0, 0]

/-- The radio report of each revision, per the specification's table. -/
def radioReport (mode : Int) (s : rsSettings) : List Nat :=
  if mode ≠ 0 then
    if s.fRadioBand = 0x24 then
      [0x81, s.fRadioFreqHi % 256, s.fRadioFreqLo % 256, 0xF3, 0x36, 0x00, toByte s.fRadioBand]
    else
      [0x81, s.fRadioFreqHi % 256, s.fRadioFreqLo % 256, 0x33, 0x04, 0x00, toByte s.fRadioBand]
  else [0xC0, toByte s.fRadioBand, s.fRadioFreqHi % 256, s.fRadioFreqLo % 256, 0, 0]

/-- One report for each category whose own field is not negative, none for a
category whose field is negative, in the order blue level, blue pulse, red
level, radio. -/
def categoryReports (mode : Int) (s : rsSettings) : List (List Nat) :=
  (if s.fBlueLightLevel < 0 then [] else [blueLevelReport mode s.fBlueLightLevel]) ++
  (if s.fBlueLightPulse < 0 then [] else [bluePulseReport s.fBlueLightPulse]) ++
  (if s.fRedLightLevel < 0 then [] else [redLevelReport mode s.fRedLightLevel]) ++
  (if s.fRadioBand < 0 then [] else [radioReport mode s])

/-- Every report of the list `l`, submitted after the reports `base`, was
answered with success by the device. -/
def Accepted (dev : Device) (base l : List (List Nat)) : Prop :=
  ∀ pre x post, l = pre ++ x :: post → dev.setReport (base ++ pre) x = KERN_SUCCESS

/-- Among the reports `l` submitted after the reports `base`, one that the
device answered with a failure is the last one. -/
def StopsAtFailure (dev : Device) (base l : List (List Nat)) : Prop :=
  ∀ pre x post, l = pre ++ x :: post →
    dev.setReport (base ++ pre) x ≠ KERN_SUCCESS → post = []

/-- A run that submitted the reports `l` after the reports `base`: either it
returned 0 and every report was accepted, or it returned -1 and a report that
failed is the last one submitted. -/
def GoodRun (dev : Device) (base : List (List Nat)) (o : Outcome) : Prop :=
  ∃ l, sent o.trace = base ++ l ∧
    ((o.exit = 0 ∧ Accepted dev base l) ∨ (o.exit = -1 ∧ StopsAtFailure dev base l))

/-- Each of the four setters, run in the order of `main` from the trace `tr`,
returns success. -/
def SettersSucceed (mode : Int) (dev : Device) (tr : List Event) (s : rsSettings) : Prop :=
  (_setBlueLight mode dev tr s.fBlueLightLevel).1 = KERN_SUCCESS ∧
  (_setBluePulse mode dev (_setBlueLight mode dev tr s.fBlueLightLevel).2
    s.fBlueLightPulse).1 = KERN_SUCCESS ∧
  (_setRedLight mode dev
    (_setBluePulse mode dev (_setBlueLight mode dev tr s.fBlueLightLevel).2
      s.fBlueLightPulse).2 s.fRedLightLevel).1 = KERN_SUCCESS ∧
  (_setRadio mode dev
    (_setRedLight mode dev
      (_setBluePulse mode dev (_setBlueLight mode dev tr s.fBlueLightLevel).2
        s.fBlueLightPulse).2 s.fRedLightLevel).2 s).1 = KERN_SUCCESS

/-- A floating-point value that is a number and not negative. -/
def NonNeg : FVal → Prop
  | FVal.fin k => 0 ≤ k
  | FVal.inf neg => neg = false
  | FVal.nan => False

/-- The integer written by the leading decimal digits of a text. -/
def digitsValue (s : CStr) : Nat := (scanDigits decDigit 10 s 0 0).1

/-- The category of settings a flag writes: 1 for the blue level (`-b`), 2 for
the blue pulse (`-p`), 3 for the red level (`-r`), 4 for the radio (`-a`,
`-f`), 0 for a flag that writes none. -/
def category (opt : Char) : Nat :=
  if opt = 'b' then 1 else if opt = 'p' then 2 else if opt = 'r' then 3
  else if opt = 'a' ∨ opt = 'f' then 4 else 0

/-- The fields of a category: the level of a light, or the band code and the
two frequency bytes of the radio. -/
def categoryFields (cat : Nat) (s : rsSettings) : Int × Nat × Nat :=
  if cat = 1 then (s.fBlueLightLevel, 0, 0)
  else if cat = 2 then (s.fBlueLightPulse, 0, 0)
  else if cat = 3 then (s.fRedLightLevel, 0, 0)
  else if cat = 4 then (s.fRadioBand, s.fRadioFreqHi, s.fRadioFreqLo)
  else (0, 0, 0)

/-- Whether a report starts with the radio opcode of one of the revisions. -/
def isRadioReport (r : List Nat) : Bool := r.head? == some 0x81 || r.head? == some 0xC0

/-! ## Concrete environments used as examples -/

/-- A device that accepts every report. -/
def acceptAll : Device := ⟨fun _ _ => KERN_SUCCESS⟩

/-- A device that rejects with status 5 the reports whose first byte is
`opcode`, and accepts the others. -/
def rejectOpcode (opcode : Nat) : Device :=
  ⟨fun _ r => if r.head? = some opcode then 5 else KERN_SUCCESS⟩

/-- A run in which a device of the given version is attached and every system
call succeeds. -/
def envWith (version : Nat) (dev : Device) : Env :=
  ⟨fun _ => true, fun v => v == version, KERN_SUCCESS, true, KERN_SUCCESS, true,
    KERN_SUCCESS, dev⟩

/-! ## Theorems -/

theorem toByte_ofNat (n : Nat) (h : n < 256) : toByte (n : Int) = n := by
  unfold toByte
  omega

/-- C1: for a level L in [0,127], `_setBlueLight` submits exactly the 6 bytes
[0xA0, L, 0, 0, 0, 0] on RevisionOne (mode = 0) and exactly the 7 bytes
[0x83, L, 0, 0, 0, 0, 0] on RevisionTwo (mode ≠ 0), and returns the status the
device gave to that report. -/
theorem setBlueLight_report (mode : Int) (dev : Device) (tr : List Event) (L : Nat)
    (hL : L ≤ 127) :
    (mode = 0 → _setBlueLight mode dev tr (L : Int)
      = (dev.setReport (sent tr) [0xA0, L, 0, 0, 0, 0],
          tr ++ [Event.report [0xA0, L, 0, 0, 0, 0]])) ∧
    (mode ≠ 0 → _setBlueLight mode dev tr (L : Int)
      = (dev.setReport (sent tr) [0x83, L, 0, 0, 0, 0, 0],
          tr ++ [Event.report [0x83, L, 0, 0, 0, 0, 0]])) := by
  have hb : ((L : Int) % 256).toNat = L := by omega
  have hn : ¬ ((L : Int) < 0) := by omega
  constructor
  · intro hm
    simp [_setBlueLight, setReport, hm, hb, hn, toByte]
  · intro hm
    simp [_setBlueLight, setReport, hm, hb, hn, toByte]

theorem setBlueLight_report_witness :
    _setBlueLight 0 acceptAll [] 100
        = (0, [Event.report [0xA0, 100, 0, 0, 0, 0]]) ∧
      _setBlueLight 1 acceptAll [] 100
        = (0, [Event.report [0x83, 100, 0, 0, 0, 0, 0]]) :=
  ⟨(setBlueLight_report 0 acceptAll [] 100 (by decide)).1 rfl,
    (setBlueLight_report 1 acceptAll [] 100 (by decide)).2 (by decide)⟩

/-- C2: for a level L in [0,127], `_setRedLight` submits on RevisionOne
[0xA9,0,0,0,0,0] when L > 0 and [0xA8,0,0,0,0,0] when L = 0 (the level byte is
not in the report), and on RevisionTwo the 7 bytes [0x84, L, 0, 0, 0, 0, 0]. -/
theorem setRedLight_report (mode : Int) (dev : Device) (tr : List Event) (L : Nat)
    (hL : L ≤ 127) :
    (mode = 0 → 0 < L → _setRedLight mode dev tr (L : Int)
      = (dev.setReport (sent tr) [0xA9, 0, 0, 0, 0, 0],
          tr ++ [Event.report [0xA9, 0, 0, 0, 0, 0]])) ∧
    (mode = 0 → L = 0 → _setRedLight mode dev tr (L : Int)
      = (dev.setReport (sent tr) [0xA8, 0, 0, 0, 0, 0],
          tr ++ [Event.report [0xA8, 0, 0, 0, 0, 0]])) ∧
    (mode ≠ 0 → _setRedLight mode dev tr (L : Int)
      = (dev.setReport (sent tr) [0x84, L, 0, 0, 0, 0, 0],
          tr ++ [Event.report [0x84, L, 0, 0, 0, 0, 0]])) := by
  have hb : ((L : Int) % 256).toNat = L := by omega
  have hn : ¬ ((L : Int) < 0) := by omega
  refine ⟨?_, ?_, ?_⟩
  · intro hm hpos
    have hp : (0 : Int) < (L : Int) := by omega
    simp [_setRedLight, setReport, hm, hp, toByte]
  · intro hm hz
    subst hz
    simp [_setRedLight, setReport, hm, toByte]
  · intro hm
    simp [_setRedLight, setReport, hm, hb, hn, toByte]

theorem setRedLight_report_witness :
    _setRedLight 0 acceptAll [] 100 = (0, [Event.report [0xA9, 0, 0, 0, 0, 0]]) ∧
      _setRedLight 0 acceptAll [] 0 = (0, [Event.report [0xA8, 0, 0, 0, 0, 0]]) ∧
      _setRedLight 1 acceptAll [] 100 = (0, [Event.report [0x84, 100, 0, 0, 0, 0, 0]]) :=
  ⟨(setRedLight_report 0 acceptAll [] 100 (by decide)).1 rfl (by decide),
    (setRedLight_report 0 acceptAll [] 0 (by decide)).2.1 rfl rfl,
    (setRedLight_report 1 acceptAll [] 100 (by decide)).2.2 (by decide)⟩

/-- C3: for a band code B in [0,127] and frequency bytes hi, lo, `_setRadio`
submits on RevisionOne the 6 bytes [0xC0, B, hi, lo, 0, 0], and on RevisionTwo
the 7 bytes [0x81, hi, lo, t0, t1, 0x00, B] with (t0, t1) = (0xF3, 0x36) when
B = 0x24 and (0x33, 0x04) for every other B. -/
theorem setRadio_report (mode : Int) (dev : Device) (tr : List Event)
    (s : rsSettings) (B : Nat) (hB : B ≤ 127) (hband : s.fRadioBand = (B : Int))
    (hhi : s.fRadioFreqHi < 256) (hlo : s.fRadioFreqLo < 256) :
    (mode = 0 → _setRadio mode dev tr s
      = setReport dev tr [0xC0, B, s.fRadioFreqHi, s.fRadioFreqLo, 0, 0]) ∧
    (mode ≠ 0 → B = 0x24 → _setRadio mode dev tr s
      = setReport dev tr [0x81, s.fRadioFreqHi, s.fRadioFreqLo, 0xF3, 0x36, 0x00, B]) ∧
    (mode ≠ 0 → B ≠ 0x24 → _setRadio mode dev tr s
      = setReport dev tr [0x81, s.fRadioFreqHi, s.fRadioFreqLo, 0x33, 0x04, 0x00, B]) := by
  have hb : ((B : Int) % 256).toNat = B := by omega
  have hn : ¬ ((B : Int) < 0) := by omega
  have h1 : s.fRadioFreqHi % 256 = s.fRadioFreqHi := Nat.mod_eq_of_lt hhi
  have h2 : s.fRadioFreqLo % 256 = s.fRadioFreqLo := Nat.mod_eq_of_lt hlo
  refine ⟨?_, ?_, ?_⟩
  · intro hm
    simp [_setRadio, hm, hband, hb, hn, h1, h2, toByte]
  · intro hm hB24
    subst hB24
    simp [_setRadio, hm, hband, h1, h2, toByte]
  · intro hm hB24
    have hne : ¬ ((B : Int) = 36) := by omega
    simp [_setRadio, hm, hband, hb, hn, h1, h2, hne, toByte]

theorem setRadio_report_witness :
    _setRadio 0 acceptAll [] ⟨-1, -1, -1, 0x12, 0x05, 0xAA⟩
        = (0, [Event.report [0xC0, 0x12, 0x05, 0xAA, 0, 0]]) ∧
      _setRadio 1 acceptAll [] ⟨-1, -1, -1, 0x24, 0x4F, 0x4C⟩
        = (0, [Event.report [0x81, 0x4F, 0x4C, 0xF3, 0x36, 0x00, 0x24]]) ∧
      _setRadio 1 acceptAll [] ⟨-1, -1, -1, 0x28, 0x06, 0xE7⟩
        = (0, [Event.report [0x81, 0x06, 0xE7, 0x33, 0x04, 0x00, 0x28]]) :=
  ⟨(setRadio_report 0 acceptAll [] ⟨-1, -1, -1, 0x12, 0x05, 0xAA⟩ 0x12
      (by decide) rfl (by decide) (by decide)).1 rfl,
    (setRadio_report 1 acceptAll [] ⟨-1, -1, -1, 0x24, 0x4F, 0x4C⟩ 0x24
      (by decide) rfl (by decide) (by decide)).2.1 (by decide) rfl,
    (setRadio_report 1 acceptAll [] ⟨-1, -1, -1, 0x28, 0x06, 0xE7⟩ 0x28
      (by decide) rfl (by decide) (by decide)).2.2 (by decide) (by decide)⟩


theorem sent_append (a b : List Event) : sent (a ++ b) = sent a ++ sent b := by
  induction a with
  | nil => simp [sent]
  | cons e rest ih => cases e <;> simp [sent, ih]

theorem hiByte_toInt32 (x : Int) (hx : 0 ≤ x) :
    hiByte (toInt32 x) = (x.toNat >>> 8) &&& 0xFF := by
  unfold hiByte bits32 toInt32
  rw [Nat.shiftRight_eq_div_pow, Nat.shiftRight_eq_div_pow]
  have e : (0xFF : Nat) = 2 ^ 8 - 1 := by norm_num
  rw [e, Nat.and_pow_two_sub_one_eq_mod, Nat.and_pow_two_sub_one_eq_mod]
  omega

theorem loByte_toInt32 (x : Int) (hx : 0 ≤ x) :
    loByte (toInt32 x) = x.toNat &&& 0xFF := by
  unfold loByte bits32 toInt32
  have e : (0xFF : Nat) = 2 ^ 8 - 1 := by norm_num
  rw [e, Nat.and_pow_two_sub_one_eq_mod, Nat.and_pow_two_sub_one_eq_mod]
  omega

theorem toInt32_toInt32_add (x y : Int) : toInt32 (toInt32 x + y) = toInt32 (x + y) := by
  unfold toInt32
  omega

/-- C7: `_setBluePulse` submits on RevisionOne, for a level L in [0,127], the 6
bytes [0xA1, L, 0, 0, 0, 0]; on RevisionTwo, for every non-negative pulse value
it returns an error status (not success) and submits no report, and for an
unset (negative) value it returns success and does nothing. -/
theorem setBluePulse_report (mode : Int) (dev : Device) (tr : List Event) :
    (mode = 0 → ∀ L : Nat, L ≤ 127 → _setBluePulse mode dev tr (L : Int)
      = (dev.setReport (sent tr) [0xA1, L, 0, 0, 0, 0],
          tr ++ [Event.report [0xA1, L, 0, 0, 0, 0]])) ∧
    (mode ≠ 0 → ∀ level : Int, 0 ≤ level →
      (_setBluePulse mode dev tr level).1 ≠ KERN_SUCCESS ∧
      sent (_setBluePulse mode dev tr level).2 = sent tr) ∧
    (mode ≠ 0 → ∀ level : Int, level < 0 →
      _setBluePulse mode dev tr level = (KERN_SUCCESS, tr)) := by
  refine ⟨?_, ?_, ?_⟩
  · intro hm L hL
    have hb : ((L : Int) % 256).toNat = L := by omega
    have hn : ¬ ((L : Int) < 0) := by omega
    simp [_setBluePulse, setReport, hm, hb, hn, toByte]
  · intro hm level hlevel
    have hn : ¬ (level < 0) := by omega
    simp [_setBluePulse, hm, hn, sent_append, sent, KERN_SUCCESS, KERN_INVALID_ARGUMENT]
  · intro hm level hlevel
    simp [_setBluePulse, hm, hlevel]

theorem setBluePulse_report_witness :
    _setBluePulse 0 acceptAll [] 100 = (0, [Event.report [0xA1, 100, 0, 0, 0, 0]]) ∧
      ((_setBluePulse 1 acceptAll [] 100).1 ≠ KERN_SUCCESS ∧
        sent (_setBluePulse 1 acceptAll [] 100).2 = sent []) ∧
      _setBluePulse 1 acceptAll [] (-1) = (KERN_SUCCESS, []) :=
  ⟨(setBluePulse_report 0 acceptAll []).1 rfl 100 (by decide),
    (setBluePulse_report 1 acceptAll []).2.1 (by decide) 100 (by decide),
    (setBluePulse_report 1 acceptAll []).2.2 (by decide) (-1) (by decide)⟩

/-- C4: the `a` case of `_parseArguments`. For every non-negative integer kHz
returned by `_atoi`, the band code stored is 0x12 on RevisionOne and 0x24 on
RevisionTwo, and the two bytes stored are hi = (raw >> 8) & 0xFF and
lo = raw & 0xFF of raw = kHz + 450 on RevisionOne and raw = kHz*4 + 16300 on
RevisionTwo; the `int` computed is raw itself as long as raw fits an `int`. -/
theorem parseCase_am (mode : Int) (optarg : CStr) (s : rsSettings) (kHz : Nat)
    (hparse : _atoi optarg = some (kHz : Int)) :
    (mode = 0 →
      parseCase mode 'a' optarg s
        = Step.next
            { s with
              fRadioBand := 0x12
              fRadioFreqHi := ((kHz + 450) >>> 8) &&& 0xFF
              fRadioFreqLo := (kHz + 450) &&& 0xFF } [] ∧
      (kHz + 450 < 2147483648 → amArg mode (kHz : Int) = ((kHz + 450 : Nat) : Int))) ∧
    (mode ≠ 0 →
      parseCase mode 'a' optarg s
        = Step.next
            { s with
              fRadioBand := 0x24
              fRadioFreqHi := ((kHz * 4 + 16300) >>> 8) &&& 0xFF
              fRadioFreqLo := (kHz * 4 + 16300) &&& 0xFF } [] ∧
      (kHz * 4 + 16300 < 2147483648 →
        amArg mode (kHz : Int) = ((kHz * 4 + 16300 : Nat) : Int))) := by
  constructor
  · intro hm
    subst hm
    have h1 : (0 : Int) ≤ (kHz : Int) + 450 := by omega
    constructor
    · simp [parseCase, hparse, amArg, hiByte_toInt32 _ h1, loByte_toInt32 _ h1]
      constructor
      · congr 2
      · congr 1
    · intro hfit
      simp only [amArg, toInt32]
      simp
      omega
  · intro hm
    have h1 : (0 : Int) ≤ (kHz : Int) * 4 + 16300 := by omega
    constructor
    · simp [parseCase, hparse, amArg, hm, toInt32_toInt32_add,
        hiByte_toInt32 _ h1, loByte_toInt32 _ h1]
      constructor
      · congr 2
      · congr 1
    · intro hfit
      simp only [amArg, toInt32, if_pos hm]
      omega

theorem parseCase_am_witness :
    parseCase 0 'a' "1000".toList initialSettings
        = Step.next ⟨-1, -1, -1, 0x12, 0x05, 0xAA⟩ [] ∧
      amArg 0 1000 = 1450 ∧
      parseCase 1 'a' "1000".toList initialSettings
        = Step.next ⟨-1, -1, -1, 0x24, 0x4F, 0x4C⟩ [] ∧
      amArg 1 1000 = 20300 :=
  ⟨((parseCase_am 0 "1000".toList initialSettings 1000 (by decide)).1 rfl).1,
    ((parseCase_am 0 "1000".toList initialSettings 1000 (by decide)).1 rfl).2 (by decide),
    ((parseCase_am 1 "1000".toList initialSettings 1000 (by decide)).2 (by decide)).1,
    ((parseCase_am 1 "1000".toList initialSettings 1000 (by decide)).2 (by decide)).2
      (by decide)⟩


theorem SCALE_pos : 0 < SCALE := by
  unfold SCALE
  positivity

theorem valueOf_mul_SCALE (n : Int) : valueOf (n * (SCALE : Int)) = (n : ℚ) := by
  have h : ((SCALE : Nat) : ℚ) ≠ 0 := by
    have := SCALE_pos
    positivity
  unfold valueOf
  push_cast
  field_simp

theorem toInt_of_nonneg (k : Int) (h0 : 0 ≤ k) (h1 : k < 2147483648 * (SCALE : Int)) :
    toInt (FVal.fin k) = ⌊valueOf k⌋ := by
  have hS := SCALE_pos
  obtain ⟨n, rfl⟩ := Int.eq_ofNat_of_zero_le h0
  have hfl : ⌊valueOf (n : Int)⌋ = ((n / SCALE : Nat) : Int) := by
    unfold valueOf
    rw [Int.cast_natCast, Rat.floor_natCast_div_natCast, Int.natCast_div]
  have hlt : n / SCALE < 2147483648 := by
    apply Nat.div_lt_of_lt_mul
    have : (n : Int) < (SCALE : Int) * 2147483648 := by linarith
    exact_mod_cast this
  rw [hfl]
  have hk : ¬ ((n : Int) < 0) := by omega
  simp only [toInt, hk, if_false, Int.natAbs_ofNat, INT_MIN]
  generalize n / SCALE = m at hlt ⊢
  rw [if_pos]
  constructor <;> omega

theorem toInt_of_neg (k : Int) (h0 : k < 0) (h1 : -(2147483649 * (SCALE : Int)) < k) :
    toInt (FVal.fin k) = ⌈valueOf k⌉ := by
  have hS := SCALE_pos
  obtain ⟨n, hn⟩ := Int.eq_ofNat_of_zero_le (show 0 ≤ -k by omega)
  have hk : k = -(n : Int) := by omega
  subst hk
  have hcl : ⌈valueOf (-(n : Int))⌉ = -((n / SCALE : Nat) : Int) := by
    unfold valueOf
    rw [Int.cast_neg, Int.cast_natCast, neg_div, Int.ceil_neg, Rat.floor_natCast_div_natCast,
      Int.natCast_div]
  have hlt : n / SCALE < 2147483649 := by
    apply Nat.div_lt_of_lt_mul
    have : (n : Int) < (SCALE : Int) * 2147483649 := by linarith
    exact_mod_cast this
  rw [hcl]
  simp only [toInt, h0, if_true, Int.natAbs_neg, Int.natAbs_ofNat, INT_MIN]
  generalize n / SCALE = m at hlt ⊢
  rw [if_pos]
  constructor <;> omega

theorem roundTo_nonneg (fmt : Format) (n : Int) (d : Nat) (h : 0 ≤ n) :
    NonNeg (roundTo fmt n d) := by
  unfold roundTo
  have hn : ¬ (n < 0) := by omega
  split
  · simp [NonNeg]
  · split <;> simp [NonNeg, hn]

theorem fmul_nonneg (fmt : Format) (a : FVal) (b : Int) (ha : NonNeg a) (hb : 0 < b) :
    NonNeg (fmul fmt a (FVal.fin b)) := by
  cases a with
  | fin k =>
    simp only [NonNeg] at ha
    simp only [fmul]
    exact roundTo_nonneg fmt _ _ (Int.mul_nonneg ha (by omega))
  | inf s =>
    simp only [NonNeg] at ha
    subst ha
    have h1 : ¬ (b = 0) := by omega
    have h2 : ¬ (b < 0) := by omega
    simp [fmul, NonNeg, h1, h2]
  | nan => simp [NonNeg] at ha

theorem fadd_nonneg (fmt : Format) (a : FVal) (b : Int) (ha : NonNeg a) (hb : 0 ≤ b) :
    NonNeg (fadd fmt a (FVal.fin b)) := by
  cases a with
  | fin k =>
    simp only [NonNeg] at ha
    simp only [fadd]
    exact roundTo_nonneg fmt _ _ (by omega)
  | inf s =>
    simp only [NonNeg] at ha
    subst ha
    simp [fadd, NonNeg]
  | nan => simp [NonNeg] at ha

theorem fdiv_nonneg (fmt : Format) (a : FVal) (b : Int) (ha : NonNeg a) (hb : 0 < b) :
    NonNeg (fdiv fmt a (FVal.fin b)) := by
  have h1 : ¬ (b = 0) := by omega
  have h2 : ¬ (b < 0) := by omega
  cases a with
  | fin k =>
    simp only [NonNeg] at ha
    simp only [fdiv, h1, h2, if_false]
    exact roundTo_nonneg fmt _ _ ha
  | inf s =>
    simp only [NonNeg] at ha
    subst ha
    simp [fdiv, NonNeg, h2]
  | nan => simp [NonNeg] at ha

theorem d2f_nonneg (a : FVal) (ha : NonNeg a) : NonNeg (d2f a) := by
  cases a with
  | fin k =>
    simp only [NonNeg] at ha
    simp only [d2f]
    exact roundTo_nonneg binary32 _ _ ha
  | inf s => simpa [d2f] using ha
  | nan => simp [NonNeg] at ha

theorem isdigit_cases (c : Char) (h : isdigit c = true) :
    c = '0' ∨ c = '1' ∨ c = '2' ∨ c = '3' ∨ c = '4' ∨ c = '5' ∨ c = '6' ∨ c = '7' ∨
      c = '8' ∨ c = '9' := by
  have hc : Char.ofNat c.toNat = c := Char.ofNat_toNat c
  simp only [isdigit, Bool.and_eq_true, decide_eq_true_eq] at h
  obtain ⟨h1, h2⟩ := h
  have e0 : '0'.toNat = 48 := rfl
  have e9 : '9'.toNat = 57 := rfl
  rw [e0] at h1
  rw [e9] at h2
  generalize c.toNat = n at hc h1 h2
  subst hc
  interval_cases n <;> decide

theorem scanMagnitude_digit_aux (x : Nat × Nat) :
    ∃ n d, (some (some x) : Option (Option (Nat × Nat))) = some (some (n, d)) :=
  ⟨x.1, x.2, rfl⟩

theorem scanMagnitude_digit (c : Char) (rest : CStr) (h : isdigit c = true) :
    ∃ n d, scanMagnitude (c :: rest) = some (some (n, d)) := by
  have h1 : startsWithWord (c :: rest) ['i', 'n', 'f'] = false := by
    rcases isdigit_cases c h with h | h | h | h | h | h | h | h | h | h <;> subst h <;>
      simp [startsWithWord, lower]
  have h2 : startsWithWord (c :: rest) ['n', 'a', 'n'] = false := by
    rcases isdigit_cases c h with h | h | h | h | h | h | h | h | h | h <;> subst h <;>
      simp [startsWithWord, lower]
  unfold scanMagnitude
  simp only [h1, h2]
  simp only [Bool.false_eq_true, if_false]
  split
  · exact scanMagnitude_digit_aux _
  · split
    · exact scanMagnitude_digit_aux _
    · exact scanMagnitude_digit_aux _

theorem atof_nonneg (c : Char) (rest : CStr) (h : isdigit c = true) :
    NonNeg (atof (c :: rest)) := by
  have hs : scanSign (skipSpace (c :: rest)) = (false, c :: rest) := by
    rcases isdigit_cases c h with h | h | h | h | h | h | h | h | h | h <;> subst h <;> rfl
  obtain ⟨n, d, hm⟩ := scanMagnitude_digit c rest h
  unfold atof
  rw [hs]
  simp only [hm]
  exact roundTo_nonneg binary64 _ _ (by simp)

theorem floor_valueOf_bounds (q : Int) (b : Int) (h0 : 0 ≤ q) (h1 : q < b * (SCALE : Int)) :
    0 ≤ ⌊valueOf q⌋ ∧ ⌊valueOf q⌋ < b := by
  have hS : (0 : ℚ) < ((SCALE : Nat) : ℚ) := by
    have := SCALE_pos
    positivity
  constructor
  · apply Int.floor_nonneg.mpr
    unfold valueOf
    have : (0 : ℚ) ≤ (q : ℚ) := by exact_mod_cast h0
    positivity
  · apply Int.floor_lt.mpr
    unfold valueOf
    rw [div_lt_iff₀ hS]
    exact_mod_cast h1

theorem const32_1000 : ofInt binary32 1000 = FVal.fin (1000 * (SCALE : Int)) := by decide!

theorem const32_10700 : ofInt binary32 10700 = FVal.fin (10700 * (SCALE : Int)) := by decide!

theorem const32_10 : ofInt binary32 10 = FVal.fin (10 * (SCALE : Int)) := by decide!

theorem const32_2 : ofInt binary32 2 = FVal.fin (2 * (SCALE : Int)) := by decide!

theorem const32_3 : ofInt binary32 3 = FVal.fin (3 * (SCALE : Int)) := by decide!

theorem const64_12_5 : roundTo binary64 25 2 = FVal.fin (25 * (2 : Int) ^ 1073) := by decide!

theorem fmFloatV1_nonneg (freq : FVal) (h : NonNeg freq) : NonNeg (fmFloatV1 freq) := by
  have hS : (0 : Int) < (SCALE : Int) := by exact_mod_cast SCALE_pos
  unfold fmFloatV1 f2d
  rw [const32_1000, const32_10700, const64_12_5]
  apply fdiv_nonneg _ _ _ _ (by positivity)
  apply fadd_nonneg _ _ _ _ (by positivity)
  exact fmul_nonneg _ _ _ h (by positivity)

/-- C5 (amended): the `f` case of `_parseArguments` on RevisionOne. For an
argument text that starts with a digit, let Q be the value of
`((freq * 1000) + 10700) / 12.5` as the program computes it in floating point
(product and sum in `float`, quotient in `double`), below 2^31 - 3. Then Q is
not negative, the `int` computed is raw = trunc(Q) + 3 - the quotient is
truncated toward zero, not rounded to the nearest integer - the band code is
0x00, hi = (raw >> 8) & 0xFF and lo = raw & 0xFF. -/
theorem parseCase_fm_v1 (optarg : CStr) (s : rsSettings) (c : Char) (rest : CStr) (q : Int)
    (hopt : optarg = c :: rest) (hdigit : isdigit c = true)
    (hq : fmFloatV1 (d2f (atof optarg)) = FVal.fin q)
    (hfit : q < 2147483645 * (SCALE : Int)) :
    0 ≤ valueOf q ∧
    fmArg 0 (d2f (atof optarg)) = ⌊valueOf q⌋ + 3 ∧
    parseCase 0 'f' optarg s
      = Step.next
          { s with
            fRadioBand := 0x00
            fRadioFreqHi := ((⌊valueOf q⌋ + 3).toNat >>> 8) &&& 0xFF
            fRadioFreqLo := (⌊valueOf q⌋ + 3).toNat &&& 0xFF } [] := by
  subst hopt
  have hnn : NonNeg (fmFloatV1 (d2f (atof (c :: rest)))) :=
    fmFloatV1_nonneg _ (d2f_nonneg _ (atof_nonneg c rest hdigit))
  rw [hq] at hnn
  have h0 : 0 ≤ q := hnn
  have hS : (0 : Int) < (SCALE : Int) := by exact_mod_cast SCALE_pos
  have hb := floor_valueOf_bounds q 2147483645 h0 hfit
  have hconv : toInt (FVal.fin q) = ⌊valueOf q⌋ :=
    toInt_of_nonneg q h0 (by omega)
  have harg : fmArg 0 (d2f (atof (c :: rest))) = ⌊valueOf q⌋ + 3 := by
    simp only [fmArg, hq, hconv]
    simp only [toInt32]
    simp
    omega
  have h3 : (0 : Int) ≤ ⌊valueOf q⌋ + 3 := by omega
  refine ⟨?_, harg, ?_⟩
  · unfold valueOf
    have : (0 : ℚ) ≤ (q : ℚ) := by exact_mod_cast h0
    positivity
  · have hh : hiByte (fmArg 0 (d2f (atof (c :: rest))))
        = ((⌊valueOf q⌋ + 3).toNat >>> 8) &&& 0xFF := by
      rw [harg]
      have := hiByte_toInt32 (⌊valueOf q⌋ + 3) h3
      have e : toInt32 (⌊valueOf q⌋ + 3) = ⌊valueOf q⌋ + 3 := by
        unfold toInt32
        omega
      rw [e] at this
      exact this
    have hl : loByte (fmArg 0 (d2f (atof (c :: rest))))
        = (⌊valueOf q⌋ + 3).toNat &&& 0xFF := by
      rw [harg]
      have := loByte_toInt32 (⌊valueOf q⌋ + 3) h3
      have e : toInt32 (⌊valueOf q⌋ + 3) = ⌊valueOf q⌋ + 3 := by
        unfold toInt32
        omega
      rw [e] at this
      exact this
    simp only [parseCase, hdigit, hh, hl]
    simp

theorem parseCase_fm_v1_witness :
    fmArg 0 (d2f (atof "88.5".toList)) = 7939 ∧
      parseCase 0 'f' "88.5".toList initialSettings
        = Step.next ⟨-1, -1, -1, 0x00, 0x1F, 0x03⟩ [] := by
  have h := parseCase_fm_v1 "88.5".toList initialSettings '8' "8.5".toList
    (7936 * (SCALE : Int)) rfl (by decide) (by decide!) (by decide!)
  rw [valueOf_mul_SCALE] at h
  simp only [Int.cast_ofNat, Int.floor_ofNat] at h
  exact ⟨h.2.1, h.2.2⟩

theorem valueOf_dyadic (m : Int) (a b : Nat) (h : a + b = 1074) :
    valueOf (m * (2 : Int) ^ a) = (m : ℚ) / 2 ^ b := by
  unfold valueOf SCALE
  rw [← h]
  push_cast
  rw [pow_add]
  field_simp
  ring

/-- C5 (as stated, refuted): for the argument `88.11` on RevisionOne the
program stores the bytes of 7907 = 7904 + 3, the quotient 7904.8 being
truncated, while rounding to the nearest integer gives 7905 + 3 = 7908, both
at the decimal 88.11 and at the `float` nearest to it that the program
computes with. -/
theorem parseCase_fm_v1_counterexample :
    d2f (atof "88.11".toList) = FVal.fin (11548754 * (2 : Int) ^ 1057) ∧
      fmArg 0 (d2f (atof "88.11".toList)) = 7907 ∧
      specFmRawV1 (8811 / 100) = 7908 ∧
      specFmRawV1 (valueOf (11548754 * (2 : Int) ^ 1057)) = 7908 ∧
      parseCase 0 'f' "88.11".toList initialSettings
        = Step.next ⟨-1, -1, -1, 0x00, 0x1E, 0xE3⟩ [] := by
  refine ⟨by decide!, by decide!, ?_, ?_, by decide!⟩
  · unfold specFmRawV1
    rw [round_eq]
    norm_num [Int.floor_eq_iff]
  · rw [valueOf_dyadic 11548754 1057 17 (by norm_num)]
    unfold specFmRawV1
    rw [round_eq]
    norm_num [Int.floor_eq_iff]

/-- C6 (amended): the `f` case of `_parseArguments` on RevisionTwo. For an
argument text that starts with a digit, let D be the value of
`(freq * 10 * 2) - 3` as the program computes it in `float`, within the range
of `int`. Then the `int` computed is raw = trunc(D), truncated toward zero
(the floor of a non-negative D, the ceiling of a negative one) and not rounded
to the nearest integer; the band code is 0x28, hi = (raw >> 8) & 0xFF and
lo = raw & 0xFF on the 32-bit pattern of raw. -/
theorem parseCase_fm_v2 (mode : Int) (optarg : CStr) (s : rsSettings) (c : Char)
    (rest : CStr) (q : Int) (hm : mode ≠ 0)
    (hopt : optarg = c :: rest) (hdigit : isdigit c = true)
    (hq : fmFloatV2 (d2f (atof optarg)) = FVal.fin q)
    (hlo : -(2147483649 * (SCALE : Int)) < q) (hhi : q < 2147483648 * (SCALE : Int)) :
    fmArg mode (d2f (atof optarg)) = (if 0 ≤ q then ⌊valueOf q⌋ else ⌈valueOf q⌉) ∧
    parseCase mode 'f' optarg s
      = Step.next
          { s with
            fRadioBand := 0x28
            fRadioFreqHi := hiByte (if 0 ≤ q then ⌊valueOf q⌋ else ⌈valueOf q⌉)
            fRadioFreqLo := loByte (if 0 ≤ q then ⌊valueOf q⌋ else ⌈valueOf q⌉) } [] := by
  subst hopt
  have harg : fmArg mode (d2f (atof (c :: rest)))
      = (if 0 ≤ q then ⌊valueOf q⌋ else ⌈valueOf q⌉) := by
    simp only [fmArg, hq, if_pos hm]
    by_cases h0 : 0 ≤ q
    · rw [if_pos h0]
      exact toInt_of_nonneg q h0 hhi
    · rw [if_neg h0]
      exact toInt_of_neg q (by omega) hlo
  refine ⟨harg, ?_⟩
  simp only [parseCase, hdigit, harg]
  simp [hm]

theorem parseCase_fm_v2_witness :
    fmArg 1 (d2f (atof "88.5".toList)) = 1767 ∧
      parseCase 1 'f' "88.5".toList initialSettings
        = Step.next ⟨-1, -1, -1, 0x28, 0x06, 0xE7⟩ [] := by
  have hS : (0 : Int) < (SCALE : Int) := by exact_mod_cast SCALE_pos
  have hpos : (0 : Int) ≤ 1767 * (SCALE : Int) := by positivity
  have h := parseCase_fm_v2 1 "88.5".toList initialSettings '8' "8.5".toList
    (1767 * (SCALE : Int)) (by decide) rfl (by decide) (by decide!) (by decide!)
    (by decide!)
  rw [if_pos hpos, valueOf_mul_SCALE] at h
  simp only [Int.cast_ofNat, Int.floor_ofNat] at h
  exact ⟨h.1, h.2⟩

/-- C6 (as stated, refuted): for the argument `88.4375` on RevisionTwo, which
is a `float` exactly, every operation is exact and the program stores the bytes
of 1765 = trunc(1768.75 - 3), while round(1768.75) - 3 = 1766. -/
theorem parseCase_fm_v2_counterexample :
    d2f (atof "88.4375".toList) = FVal.fin (1415 * (2 : Int) ^ 1070) ∧
      fmArg 1 (d2f (atof "88.4375".toList)) = 1765 ∧
      specFmRawV2 (valueOf (1415 * (2 : Int) ^ 1070)) = 1766 ∧
      parseCase 1 'f' "88.4375".toList initialSettings
        = Step.next ⟨-1, -1, -1, 0x28, 0x06, 0xE5⟩ [] := by
  refine ⟨by decide!, by decide!, ?_, by decide!⟩
  rw [valueOf_dyadic 1415 1070 4 (by norm_num)]
  unfold specFmRawV2
  rw [round_eq]
  norm_num [Int.floor_eq_iff]

theorem toByte_131 : toByte 131 = 131 := by decide

theorem toByte_160 : toByte 160 = 160 := by decide

theorem toByte_161 : toByte 161 = 161 := by decide

theorem toByte_132 : toByte 132 = 132 := by decide

theorem toByte_169 : toByte 169 = 169 := by decide

theorem toByte_168 : toByte 168 = 168 := by decide

theorem toByte_129 : toByte 129 = 129 := by decide

theorem toByte_243 : toByte 243 = 243 := by decide

theorem toByte_51 : toByte 51 = 51 := by decide

theorem toByte_54 : toByte 54 = 54 := by decide

theorem toByte_4 : toByte 4 = 4 := by decide

theorem toByte_0 : toByte 0 = 0 := by decide

theorem toByte_192 : toByte 192 = 192 := by decide

theorem toByte_ite (c : Prop) [Decidable c] (a b : Int) :
    toByte (if c then a else b) = if c then toByte a else toByte b := by
  split <;> rfl

/-- C8: with the interface opened and a device that accepts every write
(pulse unset on RevisionTwo), `main` returns 0 and the reports it submits are
exactly one for each category whose own field is not negative, none for a
category whose field is negative; in particular, with only the blue level
set, exactly one report is submitted and it is the blue-level report. -/
theorem mainTransmit_categories (mode : Int) (env : Env) (tr : List Event) (s : rsSettings)
    (hopen : env.openResult = KERN_SUCCESS)
    (hacc : ∀ h r, env.device.setReport h r = KERN_SUCCESS)
    (hpulse : mode ≠ 0 → s.fBlueLightPulse < 0) :
    (mainTransmit mode env tr s).exit = 0 ∧
    sent (mainTransmit mode env tr s).trace = sent tr ++ categoryReports mode s ∧
    (0 ≤ s.fBlueLightLevel → s.fBlueLightPulse < 0 → s.fRedLightLevel < 0 →
      s.fRadioBand < 0 →
      sent (mainTransmit mode env tr s).trace
        = sent tr ++ [blueLevelReport mode s.fBlueLightLevel]) := by
  have key : (mainTransmit mode env tr s).exit = 0 ∧
      sent (mainTransmit mode env tr s).trace = sent tr ++ categoryReports mode s := by
    by_cases hm : mode = 0
    · subst hm
      by_cases h1 : s.fBlueLightLevel < 0 <;> by_cases h2 : s.fBlueLightPulse < 0 <;>
        by_cases h3 : s.fRedLightLevel < 0 <;> by_cases h4 : s.fRadioBand < 0 <;>
        by_cases h5 : 0 < s.fRedLightLevel <;> by_cases h6 : s.fRadioBand = 36 <;>
        simp [mainTransmit, _setBlueLight, _setBluePulse, _setRedLight, _setRadio,
          setReport, hopen, hacc, h1, h2, h3, h4, h5, h6, sent_append, sent, categoryReports,
          blueLevelReport, bluePulseReport, redLevelReport, radioReport, KERN_SUCCESS,
          toByte_ite, toByte_131, toByte_160, toByte_161, toByte_132, toByte_169, toByte_168, toByte_129, toByte_243, toByte_51, toByte_54, toByte_4, toByte_0, toByte_192]
    · have h2 := hpulse hm
      by_cases h1 : s.fBlueLightLevel < 0 <;>
        by_cases h3 : s.fRedLightLevel < 0 <;> by_cases h4 : s.fRadioBand < 0 <;>
        by_cases h5 : 0 < s.fRedLightLevel <;> by_cases h6 : s.fRadioBand = 36 <;>
        simp [mainTransmit, _setBlueLight, _setBluePulse, _setRedLight, _setRadio,
          setReport, hopen, hacc, hm, h1, h2, h3, h4, h5, h6, sent_append, sent, categoryReports,
          blueLevelReport, bluePulseReport, redLevelReport, radioReport, KERN_SUCCESS,
          toByte_ite, toByte_131, toByte_160, toByte_161, toByte_132, toByte_169, toByte_168, toByte_129, toByte_243, toByte_51, toByte_54, toByte_4, toByte_0, toByte_192]
  refine ⟨key.1, key.2, ?_⟩
  intro h1 h2 h3 h4
  rw [key.2]
  have h1' : ¬ (s.fBlueLightLevel < 0) := by omega
  simp [categoryReports, h1', h2, h3, h4]

theorem mainTransmit_categories_witness :
    (mainTransmit 0 (envWith 1 acceptAll) [] ⟨5, -1, -1, -1, 0, 0⟩).exit = 0 ∧
      sent (mainTransmit 0 (envWith 1 acceptAll) [] ⟨5, -1, -1, -1, 0, 0⟩).trace
        = [[0xA0, 5, 0, 0, 0, 0]] ∧
      sent (mainTransmit 1 (envWith 16 acceptAll) [] ⟨5, -1, 7, 0x24, 0x4F, 0x4C⟩).trace
        = [[0x83, 5, 0, 0, 0, 0, 0], [0x84, 7, 0, 0, 0, 0, 0],
            [0x81, 0x4F, 0x4C, 0xF3, 0x36, 0x00, 0x24]] :=
  ⟨(mainTransmit_categories 0 (envWith 1 acceptAll) [] ⟨5, -1, -1, -1, 0, 0⟩ rfl
      (fun _ _ => rfl) (fun h => absurd rfl h)).1,
    (mainTransmit_categories 0 (envWith 1 acceptAll) [] ⟨5, -1, -1, -1, 0, 0⟩ rfl
      (fun _ _ => rfl) (fun h => absurd rfl h)).2.2 (by decide) (by decide) (by decide)
      (by decide),
    (mainTransmit_categories 1 (envWith 16 acceptAll) [] ⟨5, -1, 7, 0x24, 0x4F, 0x4C⟩ rfl
      (fun _ _ => rfl) (fun _ => by decide)).2.1⟩

theorem accepted_nil (dev : Device) (base : List (List Nat)) : Accepted dev base [] := by
  intro pre x post h
  simp at h

theorem accepted_concat (dev : Device) (base l : List (List Nat)) (r : List Nat)
    (hl : Accepted dev base l) (hr : dev.setReport (base ++ l) r = KERN_SUCCESS) :
    Accepted dev base (l ++ [r]) := by
  intro pre x post h
  rcases List.eq_nil_or_concat post with hp | ⟨post1, y, hp⟩
  · subst hp
    have h2 : l ++ [r] = pre ++ [x] := h
    have h3 := List.append_inj' h2 rfl
    obtain ⟨e1, e2⟩ := h3
    simp only [List.cons.injEq, and_true] at e2
    subst e1 e2
    exact hr
  · subst hp
    have h2 : l ++ [r] = (pre ++ x :: post1) ++ [y] := by
      rw [h]
      simp
    have h3 := List.append_inj' h2 rfl
    exact hl pre x post1 h3.1

theorem stops_of_accepted (dev : Device) (base l : List (List Nat))
    (hl : Accepted dev base l) : StopsAtFailure dev base l := by
  intro pre x post h hx
  exact absurd (hl pre x post h) hx

theorem stops_concat (dev : Device) (base l : List (List Nat)) (r : List Nat)
    (hl : Accepted dev base l) : StopsAtFailure dev base (l ++ [r]) := by
  intro pre x post h hx
  rcases List.eq_nil_or_concat post with hp | ⟨post1, y, hp⟩
  · exact hp
  · subst hp
    have h2 : l ++ [r] = (pre ++ x :: post1) ++ [y] := by
      rw [h]
      simp
    have h3 := List.append_inj' h2 rfl
    exact absurd (hl pre x post1 h3.1) hx

/-- What a setter does to the reports: nothing, or one more report whose
status it returns. -/
theorem setBlueLight_step (mode : Int) (dev : Device) (tr : List Event) (level : Int) :
    (sent (_setBlueLight mode dev tr level).2 = sent tr ∧
        (_setBlueLight mode dev tr level).1 = KERN_SUCCESS) ∨
      ∃ x, sent (_setBlueLight mode dev tr level).2 = sent tr ++ [x] ∧
        (_setBlueLight mode dev tr level).1 = dev.setReport (sent tr) x := by
  unfold _setBlueLight setReport
  by_cases hm : mode = 0 <;> by_cases hl : level < 0 <;> simp [hm, hl, sent_append, sent]

theorem setBluePulse_step (mode : Int) (dev : Device) (tr : List Event) (level : Int) :
    sent (_setBluePulse mode dev tr level).2 = sent tr ∨
      ∃ x, sent (_setBluePulse mode dev tr level).2 = sent tr ++ [x] ∧
        (_setBluePulse mode dev tr level).1 = dev.setReport (sent tr) x := by
  unfold _setBluePulse setReport
  by_cases hm : mode = 0 <;> by_cases hl : level < 0 <;> simp [hm, hl, sent_append, sent]

theorem setRedLight_step (mode : Int) (dev : Device) (tr : List Event) (level : Int) :
    (sent (_setRedLight mode dev tr level).2 = sent tr ∧
        (_setRedLight mode dev tr level).1 = KERN_SUCCESS) ∨
      ∃ x, sent (_setRedLight mode dev tr level).2 = sent tr ++ [x] ∧
        (_setRedLight mode dev tr level).1 = dev.setReport (sent tr) x := by
  unfold _setRedLight setReport
  by_cases hm : mode = 0 <;> by_cases hl : level < 0 <;> simp [hm, hl, sent_append, sent]

theorem setRadio_step (mode : Int) (dev : Device) (tr : List Event) (s : rsSettings) :
    (sent (_setRadio mode dev tr s).2 = sent tr ∧
        (_setRadio mode dev tr s).1 = KERN_SUCCESS) ∨
      ∃ x, sent (_setRadio mode dev tr s).2 = sent tr ++ [x] ∧
        (_setRadio mode dev tr s).1 = dev.setReport (sent tr) x := by
  unfold _setRadio setReport
  by_cases hm : mode = 0 <;> by_cases hl : s.fRadioBand < 0 <;>
    simp [hm, hl, sent_append, sent]

theorem kdammit_step (dev : Device) (base : List (List Nat)) (trk : List Event)
    (r : Int × List Event) (msg : String) (K : Outcome)
    (hinv : ∃ l, sent trk = base ++ l ∧ Accepted dev base l)
    (hstep : sent r.2 = sent trk ∨
      ∃ x, sent r.2 = sent trk ++ [x] ∧ r.1 = dev.setReport (sent trk) x)
    (hK : r.1 = KERN_SUCCESS → (∃ l, sent r.2 = base ++ l ∧ Accepted dev base l) →
      GoodRun dev base K) :
    GoodRun dev base
      (if r.1 ≠ KERN_SUCCESS then ⟨-1, r.2 ++ [Event.stderr msg [r.1]]⟩ else K) := by
  obtain ⟨l, hl, hacc⟩ := hinv
  by_cases hr : r.1 = KERN_SUCCESS
  · rw [if_neg (not_not.mpr hr)]
    apply hK hr
    rcases hstep with h | ⟨x, h, hx⟩
    · exact ⟨l, by rw [h, hl], hacc⟩
    · refine ⟨l ++ [x], by rw [h, hl, List.append_assoc], ?_⟩
      apply accepted_concat _ _ _ _ hacc
      rw [← hl, ← hx]
      exact hr
  · rw [if_pos hr]
    rcases hstep with h | ⟨x, h, _⟩
    · exact ⟨l, by simp [sent_append, sent, h, hl],
        Or.inr ⟨rfl, stops_of_accepted _ _ _ hacc⟩⟩
    · exact ⟨l ++ [x], by simp [sent_append, sent, h, hl],
        Or.inr ⟨rfl, stops_concat _ _ _ _ hacc⟩⟩

theorem mainTransmit_goodRun (mode : Int) (env : Env) (tr : List Event) (s : rsSettings) :
    GoodRun env.device (sent tr) (mainTransmit mode env tr s) := by
  have e0 : sent (tr ++ [Event.hidOpen]) = sent tr := by simp [sent_append, sent]
  unfold mainTransmit
  simp only []
  by_cases ho : env.openResult = KERN_SUCCESS
  · rw [if_neg (not_not.mpr ho)]
    apply kdammit_step _ _ (tr ++ [Event.hidOpen])
    · exact ⟨[], by simp [e0], accepted_nil _ _⟩
    · rcases setBlueLight_step mode env.device (tr ++ [Event.hidOpen]) s.fBlueLightLevel
        with h | h
      · exact Or.inl h.1
      · exact Or.inr h
    intro _ hinv1
    apply kdammit_step _ _ _ _ _ _ hinv1
    · exact setBluePulse_step _ _ _ _
    intro _ hinv2
    apply kdammit_step _ _ _ _ _ _ hinv2
    · rcases setRedLight_step mode env.device
        (_setBluePulse mode env.device
          (_setBlueLight mode env.device (tr ++ [Event.hidOpen]) s.fBlueLightLevel).2
          s.fBlueLightPulse).2 s.fRedLightLevel with h | h
      · exact Or.inl h.1
      · exact Or.inr h
    intro _ hinv3
    apply kdammit_step _ _ _ _ _ _ hinv3
    · rcases setRadio_step mode env.device
        (_setRedLight mode env.device
          (_setBluePulse mode env.device
            (_setBlueLight mode env.device (tr ++ [Event.hidOpen]) s.fBlueLightLevel).2
            s.fBlueLightPulse).2 s.fRedLightLevel).2 s with h | h
      · exact Or.inl h.1
      · exact Or.inr h
    intro _ hinv4
    obtain ⟨l, hl, hacc⟩ := hinv4
    exact ⟨l, by simp [sent_append, sent, hl], Or.inl ⟨rfl, hacc⟩⟩
  · rw [if_pos ho]
    exact ⟨[], by simp [sent_append, sent],
      Or.inr ⟨rfl, stops_of_accepted _ _ _ (accepted_nil _ _)⟩⟩

/-- C9 (amended): a failed write ends the run. In every run of the transmit
phase of `main`, a report that the device answers with a failure is the last
report submitted, and `main` returns -1: no write of a later category is
attempted. In particular, when the blue level is set and its write fails, the
blue-level report is the only one submitted, whatever the red level and the
radio settings are. -/
theorem mainTransmit_stops_at_failure (mode : Int) (env : Env) (tr : List Event)
    (s : rsSettings) :
    (∀ pre x post,
      sent (mainTransmit mode env tr s).trace = sent tr ++ (pre ++ x :: post) →
      env.device.setReport (sent tr ++ pre) x ≠ KERN_SUCCESS →
      post = [] ∧ (mainTransmit mode env tr s).exit = -1) ∧
    (env.openResult = KERN_SUCCESS → 0 ≤ s.fBlueLightLevel →
      env.device.setReport (sent tr) (blueLevelReport mode s.fBlueLightLevel)
        ≠ KERN_SUCCESS →
      (mainTransmit mode env tr s).exit = -1 ∧
      sent (mainTransmit mode env tr s).trace
        = sent tr ++ [blueLevelReport mode s.fBlueLightLevel]) := by
  constructor
  · intro pre x post hsplit hfail
    obtain ⟨l, hl, hcase⟩ := mainTransmit_goodRun mode env tr s
    rw [hl] at hsplit
    have hl2 : l = pre ++ x :: post := List.append_cancel_left hsplit
    rcases hcase with ⟨_, hacc⟩ | ⟨hexit, hstop⟩
    · exact absurd (hacc pre x post hl2) hfail
    · exact ⟨hstop pre x post hl2 hfail, hexit⟩
  · intro hopen hblue hfail
    have hb : ¬ (s.fBlueLightLevel < 0) := by omega
    by_cases hm : mode = 0
    · subst hm
      simp only [blueLevelReport] at hfail ⊢
      simp only [ne_eq, not_true_eq_false, if_false] at hfail ⊢
      simp [mainTransmit, _setBlueLight, setReport, hopen, hb, hfail, sent_append, sent,
        toByte_160]
    · simp only [blueLevelReport, if_pos hm] at hfail ⊢
      simp [mainTransmit, _setBlueLight, setReport, hopen, hb, hm, hfail, sent_append, sent,
        toByte_131]

theorem mainTransmit_stops_at_failure_witness :
    (mainTransmit 0 (envWith 1 (rejectOpcode 0xA0)) [] ⟨5, -1, 7, 0x12, 0x05, 0xAA⟩).exit
        = -1 ∧
      sent (mainTransmit 0 (envWith 1 (rejectOpcode 0xA0)) []
          ⟨5, -1, 7, 0x12, 0x05, 0xAA⟩).trace
        = [[0xA0, 5, 0, 0, 0, 0]] :=
  (mainTransmit_stops_at_failure 0 (envWith 1 (rejectOpcode 0xA0)) []
    ⟨5, -1, 7, 0x12, 0x05, 0xAA⟩).2 rfl (by decide) (by decide)

/-- C9 (as stated, refuted): with a v1 device that rejects the blue-level
report and accepts every other report, the command line
`radiosh -b 5 -r 7 -a 1000` sets the blue level, the red level and the radio,
yet `main` returns -1 after the blue-level report: neither the red-level nor
the radio report is submitted. -/
theorem main_continue_counterexample :
    _parseArguments 0
        ["radiosh".toList, "-b".toList, "5".toList, "-r".toList, "7".toList,
          "-a".toList, "1000".toList] initialSettings
        = Parsed.ret 1 ⟨5, -1, 7, 0x12, 0x05, 0xAA⟩ [] ∧
      (main (envWith 1 (rejectOpcode 0xA0))
        ["radiosh".toList, "-b".toList, "5".toList, "-r".toList, "7".toList,
          "-a".toList, "1000".toList]).exit = -1 ∧
      sent (main (envWith 1 (rejectOpcode 0xA0))
        ["radiosh".toList, "-b".toList, "5".toList, "-r".toList, "7".toList,
          "-a".toList, "1000".toList]).trace = [[0xA0, 5, 0, 0, 0, 0]] ∧
      redLevelReport 0 7 ∉
        sent (main (envWith 1 (rejectOpcode 0xA0))
          ["radiosh".toList, "-b".toList, "5".toList, "-r".toList, "7".toList,
            "-a".toList, "1000".toList]).trace ∧
      radioReport 0 ⟨5, -1, 7, 0x12, 0x05, 0xAA⟩ ∉
        sent (main (envWith 1 (rejectOpcode 0xA0))
          ["radiosh".toList, "-b".toList, "5".toList, "-r".toList, "7".toList,
            "-a".toList, "1000".toList]).trace := by
  decide

theorem parseLoop_value (mode : Int) (toks : List (Char × CStr)) :
    ∀ (s : rsSettings) (out : List Event) (v : Int) (s1 : rsSettings) (out1 : List Event),
      parseLoop mode toks s out = Parsed.ret v s1 out1 → v = 0 ∨ v = 1 := by
  induction toks with
  | nil =>
    intro s out v s1 out1 h
    simp only [parseLoop, Parsed.ret.injEq] at h
    omega
  | cons t rest ih =>
    intro s out v s1 out1 h
    obtain ⟨opt, optarg⟩ := t
    simp only [parseLoop] at h
    split at h
    · exact ih _ _ _ _ _ h
    · simp at h
    · simp only [Parsed.ret.injEq] at h
      omega

theorem parseArguments_value (mode : Int) (argv : List CStr) (s : rsSettings) (v : Int)
    (s1 : rsSettings) (out1 : List Event)
    (h : _parseArguments mode argv s = Parsed.ret v s1 out1) : v = 0 ∨ v = 1 := by
  unfold _parseArguments at h
  split at h
  · simp only [Parsed.ret.injEq] at h
    omega
  · exact parseLoop_value _ _ _ _ _ _ _ h

theorem mainTransmit_exit (mode : Int) (env : Env) (tr : List Event) (s : rsSettings) :
    ((mainTransmit mode env tr s).exit = 0 ↔
      env.openResult = KERN_SUCCESS ∧
        SettersSucceed mode env.device (tr ++ [Event.hidOpen]) s) ∧
    ((mainTransmit mode env tr s).exit = 0 ∨ (mainTransmit mode env tr s).exit = -1) := by
  unfold mainTransmit SettersSucceed
  simp only []
  by_cases ho : env.openResult = KERN_SUCCESS
  swap
  · simp [ho]
  by_cases h1 : (_setBlueLight mode env.device (tr ++ [Event.hidOpen])
      s.fBlueLightLevel).1 = KERN_SUCCESS
  swap
  · simp [ho, h1]
  by_cases h2 : (_setBluePulse mode env.device
      (_setBlueLight mode env.device (tr ++ [Event.hidOpen]) s.fBlueLightLevel).2
      s.fBlueLightPulse).1 = KERN_SUCCESS
  swap
  · simp [ho, h1, h2]
  by_cases h3 : (_setRedLight mode env.device
      (_setBluePulse mode env.device
        (_setBlueLight mode env.device (tr ++ [Event.hidOpen]) s.fBlueLightLevel).2
        s.fBlueLightPulse).2 s.fRedLightLevel).1 = KERN_SUCCESS
  swap
  · simp [ho, h1, h2, h3]
  by_cases h4 : (_setRadio mode env.device
      (_setRedLight mode env.device
        (_setBluePulse mode env.device
          (_setBlueLight mode env.device (tr ++ [Event.hidOpen]) s.fBlueLightLevel).2
          s.fBlueLightPulse).2 s.fRedLightLevel).2 s).1 = KERN_SUCCESS
  swap
  · simp [ho, h1, h2, h3, h4]
  simp [ho, h1, h2, h3, h4]

theorem mainWithService_exit (mode : Int) (env : Env) (tr : List Event) (argv : List CStr) :
    ((mainWithService mode env tr argv).exit = 0 ↔
      _getHIDInterface env true = true ∧
      ∃ s out, _parseArguments mode argv initialSettings = Parsed.ret 1 s out ∧
        env.openResult = KERN_SUCCESS ∧
        SettersSucceed mode env.device (tr ++ [Event.plugIn] ++ out ++ [Event.hidOpen]) s) ∧
    ((mainWithService mode env tr argv).exit = 0 ∨ (mainWithService mode env tr argv).exit = 1
      ∨ (mainWithService mode env tr argv).exit = -1) := by
  unfold mainWithService
  simp only []
  by_cases hh : _getHIDInterface env true = true
  swap
  · simp [hh]
  rcases hp : _parseArguments mode argv initialSettings with ⟨v, s1, out1⟩ | out1
  · rcases parseArguments_value _ _ _ _ _ _ hp with hv | hv
    · subst hv
      simp [hh]
    · subst hv
      have := mainTransmit_exit mode env (tr ++ [Event.plugIn] ++ out1) s1
      simp only [hh, Bool.not_true, Bool.false_eq_true, if_false, one_ne_zero, true_and,
        Parsed.ret.injEq]
      constructor
      · rw [this.1]
        constructor
        · intro h
          exact ⟨s1, out1, ⟨rfl, rfl⟩, h.1, h.2⟩
        · rintro ⟨s2, out2, ⟨e1, e2⟩, h3, h4⟩
          subst e1 e2
          exact ⟨h3, h4⟩
      · rcases this.2 with h | h
        · exact Or.inl h
        · exact Or.inr (Or.inr h)
  · simp [hh]

theorem setBluePulse_v2_refuses (mode : Int) (dev : Device) (tr : List Event) (level : Int)
    (hm : mode ≠ 0) (hlevel : 0 ≤ level) :
    (_setBluePulse mode dev tr level).1 ≠ KERN_SUCCESS := by
  have hn : ¬ (level < 0) := by omega
  simp [_setBluePulse, hm, hn, KERN_SUCCESS, KERN_INVALID_ARGUMENT]

/-- C10: the value `main` returns (or passes to `exit`) is 0 if and only if
the run is a full success: the invocation is not the empty one, a device is
found, its HID interface is obtained, `_parseArguments` returns 1, the
interface is opened, and each of the four setters returns success. In every
other case it is 1 or -1; in particular a pulse request on RevisionTwo makes
it non-zero. -/
theorem main_exit_code (env : Env) (argv : List CStr) :
    ((main env argv).exit = 0 ↔
      emptyInvocation argv = false ∧
      ∃ mode tr s out,
        locateDevice env = Located.found mode tr ∧
        _getHIDInterface env true = true ∧
        _parseArguments mode argv initialSettings = Parsed.ret 1 s out ∧
        env.openResult = KERN_SUCCESS ∧
        SettersSucceed mode env.device
          (tr ++ [Event.plugIn] ++ out ++ [Event.hidOpen]) s) ∧
    ((main env argv).exit = 0 ∨ (main env argv).exit = 1 ∨ (main env argv).exit = -1) ∧
    (∀ mode tr s out, locateDevice env = Located.found mode tr → mode ≠ 0 →
      _parseArguments mode argv initialSettings = Parsed.ret 1 s out →
      0 ≤ s.fBlueLightPulse → (main env argv).exit ≠ 0) := by
  have hloc : ∀ o, locateDevice env = Located.failed o → o.exit = -1 := by
    intro o
    unfold locateDevice
    simp only []
    split
    · intro h
      cases h
      rfl
    · split
      · intro h
        cases h
      · split
        · intro h
          cases h
          rfl
        · split
          · intro h
            cases h
            rfl
          · intro h
            cases h
  have key : ((main env argv).exit = 0 ↔
      emptyInvocation argv = false ∧
      ∃ mode tr s out,
        locateDevice env = Located.found mode tr ∧
        _getHIDInterface env true = true ∧
        _parseArguments mode argv initialSettings = Parsed.ret 1 s out ∧
        env.openResult = KERN_SUCCESS ∧
        SettersSucceed mode env.device
          (tr ++ [Event.plugIn] ++ out ++ [Event.hidOpen]) s) ∧
      ((main env argv).exit = 0 ∨ (main env argv).exit = 1 ∨ (main env argv).exit = -1) := by
    unfold main
    by_cases he : emptyInvocation argv = true
    · simp [he]
    · have he2 : emptyInvocation argv = false := by simpa using he
      rcases hl : locateDevice env with ⟨mode, tr⟩ | o
      · have hw := mainWithService_exit mode env tr argv
        simp only [he2, Bool.false_eq_true, if_false, true_and, Located.found.injEq]
        constructor
        · rw [hw.1]
          constructor
          · rintro ⟨h1, s, out, h2, h3, h4⟩
            exact ⟨mode, tr, s, out, ⟨rfl, rfl⟩, h1, h2, h3, h4⟩
          · rintro ⟨mode2, tr2, s, out, ⟨e1, e2⟩, h1, h2, h3, h4⟩
            subst e1 e2
            exact ⟨h1, s, out, h2, h3, h4⟩
        · exact hw.2
      · have ho := hloc o hl
        simp [he2, ho]
  refine ⟨key.1, key.2, ?_⟩
  intro mode tr s out hl hm hp hpulse hexit
  obtain ⟨_, mode2, tr2, s2, out2, hl2, _, hp2, _, hset⟩ := key.1.mp hexit
  rw [hl] at hl2
  simp only [Located.found.injEq] at hl2
  obtain ⟨e1, e2⟩ := hl2
  subst e1 e2
  rw [hp] at hp2
  simp only [Parsed.ret.injEq, true_and] at hp2
  obtain ⟨e3, e4⟩ := hp2
  subst e3 e4
  exact setBluePulse_v2_refuses mode env.device _ s.fBlueLightPulse hm hpulse hset.2.1

theorem main_exit_code_witness :
    (main (envWith 1 acceptAll) ["radiosh".toList, "-b".toList, "5".toList]).exit = 0 ∧
      (main (envWith 16 acceptAll) ["radiosh".toList, "-p".toList, "5".toList]).exit ≠ 0 :=
  ⟨(main_exit_code (envWith 1 acceptAll) ["radiosh".toList, "-b".toList, "5".toList]).1.mpr
      ⟨by decide, 0, [Event.matching 1, Event.probe 1], ⟨5, -1, -1, -1, 0, 0⟩, [], rfl,
        by decide, by decide, rfl, ⟨by decide, by decide, by decide, by decide⟩⟩,
    (main_exit_code (envWith 16 acceptAll)
      ["radiosh".toList, "-p".toList, "5".toList]).2.2 1
      [Event.matching 1, Event.probe 1, Event.matching 16, Event.probe 16]
      ⟨-1, 5, -1, -1, 0, 0⟩ [] rfl (by decide) (by decide) (by decide)⟩

theorem scanSign_skipSpace_digit (c : Char) (rest : CStr) (h : isdigit c = true) :
    scanSign (skipSpace (c :: rest)) = (false, c :: rest) := by
  rcases isdigit_cases c h with h | h | h | h | h | h | h | h | h | h <;> subst h <;> rfl

theorem atoi_digit (c : Char) (rest : CStr) (h : isdigit c = true) :
    _atoi (c :: rest)
      = some (toInt32 (if LONG_MAX < (digitsValue (c :: rest) : Int) then LONG_MAX
          else (digitsValue (c :: rest) : Int))) := by
  have hs := scanSign_skipSpace_digit c rest h
  have hnn : ¬ ((digitsValue (c :: rest) : Int) < LONG_MIN) := by
    unfold LONG_MIN
    omega
  simp only [_atoi, h, if_true, atoi, strtol10, hs]
  simp only [Bool.false_eq_true, if_false]
  rw [show (scanDigits decDigit 10 (c :: rest) 0 0).1 = digitsValue (c :: rest) from rfl]
  rw [if_neg hnn]

theorem clampLevel_range (a : Int) : 0 ≤ clampLevel a ∧ clampLevel a ≤ 127 := by
  unfold clampLevel
  split
  · omega
  · split <;> omega

theorem toChar_clampLevel (a : Int) : toChar (clampLevel a) = clampLevel a := by
  have := clampLevel_range a
  unfold toChar
  omega

theorem clampLevel_of_nat (n : Nat) : clampLevel (n : Int) = ((min n 127 : Nat) : Int) := by
  unfold clampLevel
  split
  · omega
  · split <;> omega

/-- C11: upper clamping of the light levels at parse time. For an argument
text of `-b`, `-p` or `-r` that starts with a decimal digit and whose leading
digits write the integer N (an `int`, N < 2^31), the level stored is
min(N, 127); and for every such text, whatever N is, the level stored lies in
[0,127], so it is never the negative sentinel. -/
theorem parseCase_level_clamp (mode : Int) (optarg : CStr) (s : rsSettings) (c : Char)
    (rest : CStr) (hopt : optarg = c :: rest) (hdigit : isdigit c = true) :
    (digitsValue optarg < 2147483648 →
      parseCase mode 'b' optarg s
        = Step.next { s with fBlueLightLevel := ((min (digitsValue optarg) 127 : Nat) : Int) }
            [] ∧
      parseCase mode 'p' optarg s
        = Step.next { s with fBlueLightPulse := ((min (digitsValue optarg) 127 : Nat) : Int) }
            [] ∧
      parseCase mode 'r' optarg s
        = Step.next { s with fRedLightLevel := ((min (digitsValue optarg) 127 : Nat) : Int) }
            []) ∧
    (∃ level : Int, 0 ≤ level ∧ level ≤ 127 ∧
      parseCase mode 'b' optarg s = Step.next { s with fBlueLightLevel := level } [] ∧
      parseCase mode 'p' optarg s = Step.next { s with fBlueLightPulse := level } [] ∧
      parseCase mode 'r' optarg s = Step.next { s with fRedLightLevel := level } []) := by
  subst hopt
  have ha := atoi_digit c rest hdigit
  constructor
  · intro hfit
    have hv : toInt32 (if LONG_MAX < (digitsValue (c :: rest) : Int) then LONG_MAX
        else (digitsValue (c :: rest) : Int)) = (digitsValue (c :: rest) : Int) := by
      have h1 : ¬ (LONG_MAX < (digitsValue (c :: rest) : Int)) := by
        unfold LONG_MAX
        omega
      rw [if_neg h1]
      unfold toInt32
      omega
    rw [hv] at ha
    have hc : toChar (clampLevel (digitsValue (c :: rest) : Int))
        = ((min (digitsValue (c :: rest)) 127 : Nat) : Int) := by
      rw [toChar_clampLevel, clampLevel_of_nat]
    simp [parseCase, ha, hc]
  · refine ⟨clampLevel (toInt32 (if LONG_MAX < (digitsValue (c :: rest) : Int) then LONG_MAX
        else (digitsValue (c :: rest) : Int))), (clampLevel_range _).1, (clampLevel_range _).2,
      ?_, ?_, ?_⟩ <;> simp [parseCase, ha, toChar_clampLevel]

theorem parseCase_level_clamp_witness :
    parseCase 0 'b' "200".toList initialSettings = Step.next ⟨127, -1, -1, -1, 0, 0⟩ [] ∧
      parseCase 0 'p' "200".toList initialSettings = Step.next ⟨-1, 127, -1, -1, 0, 0⟩ [] ∧
      parseCase 0 'r' "200".toList initialSettings = Step.next ⟨-1, -1, 127, -1, 0, 0⟩ [] ∧
      parseCase 1 'b' "93".toList initialSettings = Step.next ⟨93, -1, -1, -1, 0, 0⟩ [] :=
  ⟨((parseCase_level_clamp 0 "200".toList initialSettings '2' "00".toList rfl (by decide)).1
      (by decide)).1,
    ((parseCase_level_clamp 0 "200".toList initialSettings '2' "00".toList rfl (by decide)).1
      (by decide)).2.1,
    ((parseCase_level_clamp 0 "200".toList initialSettings '2' "00".toList rfl (by decide)).1
      (by decide)).2.2,
    ((parseCase_level_clamp 1 "93".toList initialSettings '9' "3".toList rfl (by decide)).1
      (by decide)).1⟩

theorem parseCase_out_sent (mode : Int) (opt : Char) (optarg : CStr) (s s1 : rsSettings)
    (out : List Event) (h : parseCase mode opt optarg s = Step.next s1 out) :
    sent out = [] := by
  unfold parseCase at h
  repeat' split at h
  all_goals first
    | (simp only [Step.next.injEq] at h; obtain ⟨_, h2⟩ := h; subst h2; simp [sent])
    | simp at h

theorem parseLoop_sent (mode : Int) (toks : List (Char × CStr)) :
    ∀ (s : rsSettings) (out : List Event), sent out = [] →
      (∀ v s1 out1, parseLoop mode toks s out = Parsed.ret v s1 out1 → sent out1 = []) ∧
      (∀ out1, parseLoop mode toks s out = Parsed.exit out1 → sent out1 = []) := by
  induction toks with
  | nil =>
    intro s out hout
    constructor
    · intro v s1 out1 h
      simp only [parseLoop, Parsed.ret.injEq] at h
      obtain ⟨_, _, h3⟩ := h
      subst h3
      exact hout
    · intro out1 h
      simp [parseLoop] at h
  | cons t rest ih =>
    intro s out hout
    obtain ⟨opt, optarg⟩ := t
    simp only [parseLoop]
    split
    · rename_i s2 out2 hc
      have h2 := parseCase_out_sent _ _ _ _ _ _ hc
      exact ih s2 (out ++ out2) (by rw [sent_append, hout, h2]; rfl)
    · constructor
      · intro v s1 out1 h
        simp at h
      · intro out1 h
        simp only [Parsed.exit.injEq] at h
        subst h
        simp [sent_append, hout, sent]
    · constructor
      · intro v s1 out1 h
        simp only [Parsed.ret.injEq] at h
        obtain ⟨_, _, h3⟩ := h
        subst h3
        exact hout
      · intro out1 h
        simp at h

theorem parseLoop_exit_usage (mode : Int) (toks : List (Char × CStr)) :
    ∀ (s : rsSettings) (out out1 : List Event),
      parseLoop mode toks s out = Parsed.exit out1 → Event.usage ∈ out1 := by
  induction toks with
  | nil =>
    intro s out out1 h
    simp [parseLoop] at h
  | cons t rest ih =>
    intro s out out1 h
    obtain ⟨opt, optarg⟩ := t
    simp only [parseLoop] at h
    split at h
    · exact ih _ _ _ h
    · simp only [Parsed.exit.injEq] at h
      subst h
      simp
    · simp at h

theorem parseArguments_exit_usage (mode : Int) (argv : List CStr) (s : rsSettings)
    (out1 : List Event) (h : _parseArguments mode argv s = Parsed.exit out1) :
    Event.usage ∈ out1 := by
  unfold _parseArguments at h
  split at h
  · simp at h
  · exact parseLoop_exit_usage _ _ _ _ _ h

theorem parseArguments_sent (mode : Int) (argv : List CStr) (s : rsSettings) :
    (∀ v s1 out1, _parseArguments mode argv s = Parsed.ret v s1 out1 → sent out1 = []) ∧
    (∀ out1, _parseArguments mode argv s = Parsed.exit out1 → sent out1 = []) := by
  unfold _parseArguments
  split
  · constructor
    · intro v s1 out1 h
      simp only [Parsed.ret.injEq] at h
      obtain ⟨_, _, h3⟩ := h
      subst h3
      rfl
    · intro out1 h
      simp at h
  · exact parseLoop_sent mode _ s [] rfl

theorem locateDevice_found (env : Env) (mode : Int) (tr : List Event)
    (h : locateDevice env = Located.found mode tr) :
    sent tr = [] ∧ (mode = 0 ∨ mode = 1) := by
  unfold locateDevice at h
  simp only [] at h
  repeat' split at h
  all_goals first
    | (simp only [Located.found.injEq] at h; obtain ⟨h1, h2⟩ := h; subst h1 h2;
       exact ⟨by decide, by decide⟩)
    | simp at h

theorem locateDevice_failed (env : Env) (o : Outcome)
    (h : locateDevice env = Located.failed o) : o.exit = -1 ∧ sent o.trace = [] := by
  unfold locateDevice at h
  simp only [] at h
  repeat' split at h
  all_goals first
    | (simp only [Located.failed.injEq] at h; subst h; exact ⟨rfl, by decide⟩)
    | simp at h

/-- When the scan of the arguments ends in the usage text, `main` ends with
status 1 and has submitted no report. -/
theorem main_of_parse_usage (env : Env) (argv : List CStr) (mode : Int) (tr : List Event)
    (hne : emptyInvocation argv = false)
    (hl : locateDevice env = Located.found mode tr)
    (hh : _getHIDInterface env true = true)
    (hp : (∃ out, _parseArguments mode argv initialSettings = Parsed.exit out) ∨
      ∃ s out, _parseArguments mode argv initialSettings = Parsed.ret 0 s out) :
    (main env argv).exit = 1 ∧ sent (main env argv).trace = [] ∧
      Event.usage ∈ (main env argv).trace := by
  have hs := (locateDevice_found env mode tr hl).1
  rcases hp with ⟨out, hp⟩ | ⟨s, out, hp⟩
  · have ho := (parseArguments_sent mode argv initialSettings).2 out hp
    have hu := parseArguments_exit_usage mode argv initialSettings out hp
    simp [main, hne, hl, mainWithService, hh, hp, sent_append, hs, ho, sent, hu]
  · have ho := (parseArguments_sent mode argv initialSettings).1 0 s out hp
    simp [main, hne, hl, mainWithService, hh, hp, sent_append, hs, ho, sent]

/-- When the scan of the arguments succeeds, `main` goes on with the transmit
phase; no report was submitted before it. -/
theorem main_eq_transmit (env : Env) (argv : List CStr) (mode : Int) (tr : List Event)
    (s : rsSettings) (out : List Event)
    (hne : emptyInvocation argv = false)
    (hl : locateDevice env = Located.found mode tr)
    (hh : _getHIDInterface env true = true)
    (hp : _parseArguments mode argv initialSettings = Parsed.ret 1 s out) :
    main env argv = mainTransmit mode env (tr ++ [Event.plugIn] ++ out) s ∧
      sent (tr ++ [Event.plugIn] ++ out) = [] := by
  have hs := (locateDevice_found env mode tr hl).1
  have ho := (parseArguments_sent mode argv initialSettings).1 1 s out hp
  constructor
  · simp [main, hne, hl, mainWithService, hh, hp]
  · simp [sent_append, hs, ho, sent]

/-- C12 (amended): a negative level is a usage error. For a level flag
(`-b`, `-p`, `-r`) whose argument text starts with a minus sign, `_atoi` finds
no digit in front and calls `_printUsage`: the scan of the arguments ends in
the usage text and `exit(1)`, no level is stored, and `main` ends with status 1
without having submitted any report. -/
theorem negative_level_usage (mode : Int) (flag : Char) (prog rest : CStr)
    (s : rsSettings) (hflag : flag = 'b' ∨ flag = 'p' ∨ flag = 'r') :
    parseCase mode flag ('-' :: rest) s = Step.usageExit ∧
    _parseArguments mode [prog, ['-', flag], '-' :: rest] s = Parsed.exit [Event.usage] ∧
    (∀ env tr, locateDevice env = Located.found mode tr →
      _getHIDInterface env true = true →
      (main env [prog, ['-', flag], '-' :: rest]).exit = 1 ∧
      sent (main env [prog, ['-', flag], '-' :: rest]).trace = [] ∧
      Event.usage ∈ (main env [prog, ['-', flag], '-' :: rest]).trace) := by
  have hd : isdigit '-' = false := by decide
  have h1 : parseCase mode flag ('-' :: rest) s = Step.usageExit := by
    rcases hflag with h | h | h <;> subst h <;> simp [parseCase, _atoi, hd]
  have h2 : ∀ s0, _parseArguments mode [prog, ['-', flag], '-' :: rest] s0
      = Parsed.exit [Event.usage] := by
    intro s0
    rcases hflag with h | h | h <;> subst h <;>
      simp [_parseArguments, getopt, getoptFrom, getoptCluster, optLookup, optstring,
        parseLoop, parseCase, _atoi, hd]
  refine ⟨h1, h2 s, ?_⟩
  intro env tr hl hh
  exact main_of_parse_usage env _ mode tr (by simp [emptyInvocation]) hl hh
    (Or.inl ⟨_, h2 initialSettings⟩)

theorem negative_level_usage_witness :
    parseCase 0 'b' "-5".toList initialSettings = Step.usageExit ∧
      (main (envWith 1 acceptAll) ["radiosh".toList, "-b".toList, "-5".toList]).exit = 1 ∧
      sent (main (envWith 1 acceptAll) ["radiosh".toList, "-b".toList, "-5".toList]).trace
        = [] :=
  ⟨(negative_level_usage 0 'b' "radiosh".toList "5".toList initialSettings (Or.inl rfl)).1,
    ((negative_level_usage 0 'b' "radiosh".toList "5".toList initialSettings
      (Or.inl rfl)).2.2 (envWith 1 acceptAll) [Event.matching 1, Event.probe 1] rfl
      (by decide)).1,
    ((negative_level_usage 0 'b' "radiosh".toList "5".toList initialSettings
      (Or.inl rfl)).2.2 (envWith 1 acceptAll) [Event.matching 1, Event.probe 1] rfl
      (by decide)).2.1⟩

/-- C12 (as stated, refuted): for `radiosh -b -5` the scan of the arguments
does not succeed and no level 0 is stored: `getopt` hands the text `-5` to the
`b` case, `_atoi` prints the usage text and the process exits with status 1;
no blue-level report (of level 0 or any other) is submitted. -/
theorem negative_level_counterexample :
    getopt ["radiosh".toList, "-b".toList, "-5".toList] optstring = [('b', "-5".toList)] ∧
      _parseArguments 0 ["radiosh".toList, "-b".toList, "-5".toList] initialSettings
        = Parsed.exit [Event.usage] ∧
      main (envWith 1 acceptAll) ["radiosh".toList, "-b".toList, "-5".toList]
        = ⟨1, [Event.matching 1, Event.probe 1, Event.plugIn, Event.usage]⟩ ∧
      blueLevelReport 0 0 ∉
        sent (main (envWith 1 acceptAll)
          ["radiosh".toList, "-b".toList, "-5".toList]).trace := by
  decide

theorem bytes_low16 (arg : Int) :
    ((256 * hiByte arg + loByte arg : Nat) : Int) = arg % 65536 := by
  unfold hiByte loByte bits32
  rw [Nat.shiftRight_eq_div_pow]
  have e : (0xff : Nat) = 2 ^ 8 - 1 := by norm_num
  rw [e, Nat.and_pow_two_sub_one_eq_mod, Nat.and_pow_two_sub_one_eq_mod]
  omega

/-- C13 (amended): the two bytes stored are the low 16 bits of the tuner word.
For every frequency argument accepted by `-a` or `-f`, on both revisions,
256*hi + lo = raw mod 65536, where raw is the `int` the program computes; the
bytes reconstruct raw exactly if and only if 0 <= raw < 65536. For AM on
RevisionOne that holds exactly for kHz <= 65085; on RevisionTwo it holds for
kHz <= 12308 and fails for 12309 <= kHz < 2^29. -/
theorem tuner_word_low16 (mode : Int) (opt : Char) (optarg : CStr) (s s1 : rsSettings)
    (out : List Event) (hopt : opt = 'a' ∨ opt = 'f')
    (h : parseCase mode opt optarg s = Step.next s1 out) :
    (∃ raw : Int,
      (opt = 'a' → ∃ k, _atoi optarg = some k ∧ raw = amArg mode k) ∧
      (opt = 'f' → raw = fmArg mode (d2f (atof optarg))) ∧
      ((256 * s1.fRadioFreqHi + s1.fRadioFreqLo : Nat) : Int) = raw % 65536 ∧
      (((256 * s1.fRadioFreqHi + s1.fRadioFreqLo : Nat) : Int) = raw ↔
        0 ≤ raw ∧ raw < 65536)) ∧
    (∀ k : Int, 0 ≤ k → k < 2147483648 →
      ((0 ≤ amArg 0 k ∧ amArg 0 k < 65536) ↔ k ≤ 65085)) ∧
    (∀ k : Int, 0 ≤ k → k < 536870912 → mode ≠ 0 →
      ((0 ≤ amArg mode k ∧ amArg mode k < 65536) ↔ k ≤ 12308)) := by
  refine ⟨?_, ?_, ?_⟩
  · rcases hopt with ho | ho
    · subst ho
      simp only [parseCase] at h
      simp only [show ¬ ('a' = 'v') by decide, show ¬ ('a' = 'b') by decide,
        show ¬ ('a' = 'p') by decide, show ¬ ('a' = 'r') by decide, if_false, if_true] at h
      cases hk : _atoi optarg with
      | none => simp [hk] at h
      | some k =>
        simp only [hk, Step.next.injEq] at h
        obtain ⟨h1, _⟩ := h
        subst h1
        refine ⟨amArg mode k, fun _ => ⟨k, rfl, rfl⟩, fun hf => absurd hf (by decide), ?_, ?_⟩
        · exact bytes_low16 _
        · have := bytes_low16 (amArg mode k)
          simp only [] at this ⊢
          rw [this]
          omega
    · subst ho
      simp only [parseCase] at h
      simp only [show ¬ ('f' = 'v') by decide, show ¬ ('f' = 'b') by decide,
        show ¬ ('f' = 'p') by decide, show ¬ ('f' = 'r') by decide,
        show ¬ ('f' = 'a') by decide, if_false, if_true] at h
      cases optarg with
      | nil => simp at h
      | cons c rest =>
        by_cases hd : isdigit c = true
        · simp only [hd, if_true, Step.next.injEq] at h
          obtain ⟨h1, _⟩ := h
          subst h1
          refine ⟨fmArg mode (d2f (atof (c :: rest))), fun hf => absurd hf (by decide),
            fun _ => rfl, ?_, ?_⟩
          · exact bytes_low16 _
          · have := bytes_low16 (fmArg mode (d2f (atof (c :: rest))))
            simp only [] at this ⊢
            rw [this]
            omega
        · simp [hd] at h
  · intro k h0 h1
    simp only [amArg, toInt32]
    simp
    omega
  · intro k h0 h1 hm
    simp only [amArg, toInt32, if_pos hm]
    omega

theorem tuner_word_low16_witness :
    ∃ raw : Int,
      ('a' = 'a' → ∃ k, _atoi "1000".toList = some k ∧ raw = amArg 0 k) ∧
      ('a' = 'f' → raw = fmArg 0 (d2f (atof "1000".toList))) ∧
      ((256 * 0x05 + 0xAA : Nat) : Int) = raw % 65536 ∧
      (((256 * 0x05 + 0xAA : Nat) : Int) = raw ↔ 0 ≤ raw ∧ raw < 65536) :=
  (tuner_word_low16 0 'a' "1000".toList initialSettings ⟨-1, -1, -1, 0x12, 0x05, 0xAA⟩ []
    (Or.inl rfl) (by decide)).1

/-- C13 (as stated, refuted): `-a 70000` on RevisionOne is accepted and gives
raw = 70450, which does not fit 16 bits; the bytes stored are 0x13 and 0x32,
and 256*0x13 + 0x32 = 4914. On RevisionTwo `-a 12309` gives raw = 65536 and
the bytes 0, 0. -/
theorem tuner_word_16bit_counterexample :
    _atoi "70000".toList = some 70000 ∧
      amArg 0 70000 = 70450 ∧
      parseCase 0 'a' "70000".toList initialSettings
        = Step.next ⟨-1, -1, -1, 0x12, 0x13, 0x32⟩ [] ∧
      256 * 0x13 + 0x32 = 4914 ∧
      amArg 1 12309 = 65536 ∧
      parseCase 1 'a' "12309".toList initialSettings
        = Step.next ⟨-1, -1, -1, 0x24, 0x00, 0x00⟩ [] := by
  decide

/-- C14 (amended): the frequency text of `-a` or `-f` is accepted exactly when
its first character is a decimal digit. A text that starts with a digit is
accepted whatever follows the leading number; a text that is empty or starts
with another character (a sign, a point, a letter) makes the scan of the
arguments end in the usage text and `exit(1)`, and `main` then ends with
status 1 without having submitted any report. -/
theorem frequency_text_validation (mode : Int) (opt : Char) (optarg : CStr)
    (s : rsSettings) (hopt : opt = 'a' ∨ opt = 'f') :
    (∀ c rest, optarg = c :: rest → isdigit c = true →
      ∃ s1, parseCase mode opt optarg s = Step.next s1 []) ∧
    ((optarg = [] ∨ ∃ c rest, optarg = c :: rest ∧ isdigit c = false) →
      parseCase mode opt optarg s = Step.usageExit ∧
      ∀ env prog tr, locateDevice env = Located.found mode tr →
        _getHIDInterface env true = true →
        (main env [prog, ['-', opt], optarg]).exit = 1 ∧
        sent (main env [prog, ['-', opt], optarg]).trace = [] ∧
        Event.usage ∈ (main env [prog, ['-', opt], optarg]).trace) := by
  constructor
  · intro c rest he hd
    subst he
    rcases hopt with h | h
    · subst h
      have ha := atoi_digit c rest hd
      simp only [parseCase, ha]
      simp
    · subst h
      simp only [parseCase, hd]
      simp
  · intro hbad
    have hcase : ∀ s0, parseCase mode opt optarg s0 = Step.usageExit := by
      intro s0
      rcases hbad with he | ⟨c, rest, he, hd⟩
      · subst he
        rcases hopt with h | h <;> subst h <;> simp [parseCase, _atoi]
      · subst he
        rcases hopt with h | h <;> subst h <;> simp [parseCase, _atoi, hd]
    refine ⟨hcase s, ?_⟩
    intro env prog tr hl hh
    have hp : _parseArguments mode [prog, ['-', opt], optarg] initialSettings
        = Parsed.exit [Event.usage] := by
      have hc := hcase initialSettings
      rcases hopt with h | h <;> subst h <;>
        simp [_parseArguments, getopt, getoptFrom, getoptCluster, optLookup, optstring,
          parseLoop, hc]
    exact main_of_parse_usage env _ mode tr (by simp [emptyInvocation]) hl hh
      (Or.inl ⟨_, hp⟩)

theorem frequency_text_validation_witness :
    (∃ s1, parseCase 0 'a' "1000".toList initialSettings = Step.next s1 []) ∧
      parseCase 0 'a' "-5".toList initialSettings = Step.usageExit ∧
      (main (envWith 1 acceptAll) ["radiosh".toList, "-a".toList, "-5".toList]).exit = 1 ∧
      sent (main (envWith 1 acceptAll) ["radiosh".toList, "-a".toList, "-5".toList]).trace
        = [] :=
  ⟨(frequency_text_validation 0 'a' "1000".toList initialSettings (Or.inl rfl)).1
      '1' "000".toList rfl (by decide),
    ((frequency_text_validation 0 'a' "-5".toList initialSettings (Or.inl rfl)).2
      (Or.inr ⟨'-', "5".toList, rfl, by decide⟩)).1,
    (((frequency_text_validation 0 'a' "-5".toList initialSettings (Or.inl rfl)).2
      (Or.inr ⟨'-', "5".toList, rfl, by decide⟩)).2 (envWith 1 acceptAll) "radiosh".toList
      [Event.matching 1, Event.probe 1] rfl (by decide)).1,
    (((frequency_text_validation 0 'a' "-5".toList initialSettings (Or.inl rfl)).2
      (Or.inr ⟨'-', "5".toList, rfl, by decide⟩)).2 (envWith 1 acceptAll) "radiosh".toList
      [Event.matching 1, Event.probe 1] rfl (by decide)).2.1⟩

/-- C14 (as stated, refuted): the text `1x` does not parse as a number, yet
`-a 1x` is accepted and read as 1: raw = 451, and `main` submits the radio
report [0xC0, 0x12, 0x01, 0xC3, 0, 0] and returns 0. Conversely the text `.5`
is a non-negative number, yet `-f .5` is rejected with the usage text. -/
theorem frequency_text_counterexample :
    parseCase 0 'a' "1x".toList initialSettings
        = Step.next ⟨-1, -1, -1, 0x12, 0x01, 0xC3⟩ [] ∧
      (main (envWith 1 acceptAll) ["radiosh".toList, "-a".toList, "1x".toList]).exit = 0 ∧
      sent (main (envWith 1 acceptAll) ["radiosh".toList, "-a".toList, "1x".toList]).trace
        = [[0xC0, 0x12, 0x01, 0xC3, 0, 0]] ∧
      parseCase 0 'f' ".5".toList initialSettings = Step.usageExit := by
  decide

/-- C15: usage on the empty invocation. With no argument, or with a single
argument that starts with `-v`, `main` prints the usage text and ends with
status 1; that is all it does: no matching dictionary is requested, no device
is probed and no report is submitted. -/
theorem main_empty_invocation (env : Env) (prog rest : CStr) :
    main env [prog] = ⟨1, [Event.usage]⟩ ∧
    main env [prog, '-' :: 'v' :: rest] = ⟨1, [Event.usage]⟩ ∧
    (main env [prog, "-v".toList]).exit ≠ 0 ∧
    sent (main env [prog, "-v".toList]).trace = [] ∧
    (∀ version, Event.probe version ∉ (main env [prog, "-v".toList]).trace ∧
      Event.matching version ∉ (main env [prog, "-v".toList]).trace ∧
      Event.probe version ∉ (main env [prog]).trace ∧
      Event.matching version ∉ (main env [prog]).trace) := by
  have h1 : main env [prog] = ⟨1, [Event.usage]⟩ := by
    simp [main, emptyInvocation]
  have h2 : ∀ r, main env [prog, '-' :: 'v' :: r] = ⟨1, [Event.usage]⟩ := by
    intro r
    simp [main, emptyInvocation]
  have h3 : main env [prog, "-v".toList] = ⟨1, [Event.usage]⟩ := h2 []
  refine ⟨h1, h2 rest, ?_, ?_, ?_⟩
  · rw [h3]
    decide
  · rw [h3]
    rfl
  · intro version
    rw [h3, h1]
    simp

theorem setBlueLight_sent (mode : Int) (dev : Device) (tr : List Event) (level : Int) :
    sent (_setBlueLight mode dev tr level).2
      = sent tr ++ (if level < 0 then [] else [blueLevelReport mode level]) := by
  unfold _setBlueLight setReport blueLevelReport
  by_cases hm : mode = 0 <;> by_cases hl : level < 0 <;>
    simp [hm, hl, sent_append, sent, toByte_131, toByte_160]

theorem setBluePulse_sent (mode : Int) (dev : Device) (tr : List Event) (level : Int) :
    sent (_setBluePulse mode dev tr level).2
      = sent tr ++ (if mode ≠ 0 then []
          else if level < 0 then [] else [bluePulseReport level]) := by
  unfold _setBluePulse setReport bluePulseReport
  by_cases hm : mode = 0 <;> by_cases hl : level < 0 <;>
    simp [hm, hl, sent_append, sent, toByte_161]

theorem setBluePulse_success (mode : Int) (dev : Device) (tr : List Event) (level : Int)
    (hm : mode ≠ 0) (h : (_setBluePulse mode dev tr level).1 = KERN_SUCCESS) : level < 0 := by
  by_contra hl
  exact setBluePulse_v2_refuses mode dev tr level hm (by omega) h

theorem setRedLight_sent (mode : Int) (dev : Device) (tr : List Event) (level : Int) :
    sent (_setRedLight mode dev tr level).2
      = sent tr ++ (if level < 0 then [] else [redLevelReport mode level]) := by
  unfold _setRedLight setReport redLevelReport
  by_cases hm : mode = 0 <;> by_cases hl : level < 0 <;> by_cases hp : level > 0 <;>
    simp [hm, hl, hp, sent_append, sent, toByte_132, toByte_169, toByte_168]

theorem setRadio_sent (mode : Int) (dev : Device) (tr : List Event) (s : rsSettings) :
    sent (_setRadio mode dev tr s).2
      = sent tr ++ (if s.fRadioBand < 0 then [] else [radioReport mode s]) := by
  unfold _setRadio setReport radioReport
  by_cases hm : mode = 0 <;> by_cases hl : s.fRadioBand < 0 <;>
    by_cases hb : s.fRadioBand = 36 <;>
    simp [hm, hl, hb, sent_append, sent, toByte_129, toByte_243, toByte_51, toByte_54,
      toByte_4, toByte_0, toByte_192]

/-- The reports the transmit phase submits are the first few of the reports of
the categories, in the order blue level, blue pulse, red level, radio. -/
theorem mainTransmit_prefix (mode : Int) (env : Env) (tr : List Event) (s : rsSettings) :
    ∃ l, sent (mainTransmit mode env tr s).trace = sent tr ++ l ∧
      l <+: categoryReports mode s := by
  have e0 : sent (tr ++ [Event.hidOpen]) = sent tr := by simp [sent_append, sent]
  unfold mainTransmit
  simp only []
  by_cases ho : env.openResult = KERN_SUCCESS
  swap
  · rw [if_pos ho]
    exact ⟨[], by simp [sent_append, sent], List.nil_prefix⟩
  rw [if_neg (not_not.mpr ho)]
  by_cases h1 : (_setBlueLight mode env.device (tr ++ [Event.hidOpen])
      s.fBlueLightLevel).1 = KERN_SUCCESS
  swap
  · rw [if_pos h1]
    refine ⟨if s.fBlueLightLevel < 0 then [] else [blueLevelReport mode s.fBlueLightLevel],
      by simp [sent_append, sent, setBlueLight_sent, e0], ?_⟩
    unfold categoryReports
    rw [List.append_assoc, List.append_assoc]
    exact List.prefix_append _ _
  rw [if_neg (not_not.mpr h1)]
  by_cases h2 : (_setBluePulse mode env.device
      (_setBlueLight mode env.device (tr ++ [Event.hidOpen]) s.fBlueLightLevel).2
      s.fBlueLightPulse).1 = KERN_SUCCESS
  swap
  · rw [if_pos h2]
    refine ⟨(if s.fBlueLightLevel < 0 then [] else [blueLevelReport mode s.fBlueLightLevel]) ++
        (if mode ≠ 0 then []
          else if s.fBlueLightPulse < 0 then [] else [bluePulseReport s.fBlueLightPulse]),
      by simp [sent_append, sent, setBlueLight_sent, setBluePulse_sent, e0], ?_⟩
    unfold categoryReports
    by_cases hm : mode = 0
    · simp only [hm, ne_eq, not_true_eq_false, if_false]
      rw [List.append_assoc]
      exact List.prefix_append _ _
    · simp only [hm, ne_eq, not_false_eq_true, if_true, List.append_nil]
      rw [List.append_assoc, List.append_assoc]
      exact List.prefix_append _ _
  rw [if_neg (not_not.mpr h2)]
  have hp : (if mode ≠ 0 then ([] : List (List Nat))
      else if s.fBlueLightPulse < 0 then [] else [bluePulseReport s.fBlueLightPulse])
      = if s.fBlueLightPulse < 0 then [] else [bluePulseReport s.fBlueLightPulse] := by
    by_cases hm : mode = 0
    · simp [hm]
    · have := setBluePulse_success mode env.device _ _ hm h2
      simp [hm, this]
  by_cases h3 : (_setRedLight mode env.device
      (_setBluePulse mode env.device
        (_setBlueLight mode env.device (tr ++ [Event.hidOpen]) s.fBlueLightLevel).2
        s.fBlueLightPulse).2 s.fRedLightLevel).1 = KERN_SUCCESS
  swap
  · rw [if_pos h3]
    refine ⟨(if s.fBlueLightLevel < 0 then [] else [blueLevelReport mode s.fBlueLightLevel]) ++
        (if s.fBlueLightPulse < 0 then [] else [bluePulseReport s.fBlueLightPulse]) ++
        (if s.fRedLightLevel < 0 then [] else [redLevelReport mode s.fRedLightLevel]),
      ?_, ?_⟩
    · rw [← hp]
      simp [sent_append, sent, setBlueLight_sent, setBluePulse_sent, setRedLight_sent, e0]
    · unfold categoryReports
      exact List.prefix_append _ _
  rw [if_neg (not_not.mpr h3)]
  refine ⟨categoryReports mode s, ?_, List.prefix_refl _⟩
  unfold categoryReports
  rw [← hp]
  split <;>
    simp [sent_append, sent, setBlueLight_sent, setBluePulse_sent, setRedLight_sent,
      setRadio_sent, e0]

theorem setBlueLight_congr (mode : Int) (dev : Device) (tr tr2 : List Event) (level : Int)
    (h : sent tr = sent tr2) :
    (_setBlueLight mode dev tr level).1 = (_setBlueLight mode dev tr2 level).1 ∧
      sent (_setBlueLight mode dev tr level).2 = sent (_setBlueLight mode dev tr2 level).2 := by
  unfold _setBlueLight setReport
  by_cases hm : mode = 0 <;> by_cases hl : level < 0 <;> simp [hm, hl, sent_append, h]

theorem setBluePulse_congr (mode : Int) (dev : Device) (tr tr2 : List Event) (level : Int)
    (h : sent tr = sent tr2) :
    (_setBluePulse mode dev tr level).1 = (_setBluePulse mode dev tr2 level).1 ∧
      sent (_setBluePulse mode dev tr level).2 = sent (_setBluePulse mode dev tr2 level).2 := by
  unfold _setBluePulse setReport
  by_cases hm : mode = 0 <;> by_cases hl : level < 0 <;> simp [hm, hl, sent_append, h]

theorem setRedLight_congr (mode : Int) (dev : Device) (tr tr2 : List Event) (level : Int)
    (h : sent tr = sent tr2) :
    (_setRedLight mode dev tr level).1 = (_setRedLight mode dev tr2 level).1 ∧
      sent (_setRedLight mode dev tr level).2 = sent (_setRedLight mode dev tr2 level).2 := by
  unfold _setRedLight setReport
  by_cases hm : mode = 0 <;> by_cases hl : level < 0 <;> simp [hm, hl, sent_append, h]

theorem setRadio_congr (mode : Int) (dev : Device) (tr tr2 : List Event) (s : rsSettings)
    (h : sent tr = sent tr2) :
    (_setRadio mode dev tr s).1 = (_setRadio mode dev tr2 s).1 ∧
      sent (_setRadio mode dev tr s).2 = sent (_setRadio mode dev tr2 s).2 := by
  unfold _setRadio setReport
  by_cases hm : mode = 0 <;> by_cases hl : s.fRadioBand < 0 <;>
    simp [hm, hl, sent_append, h]

/-- The status and the reports of the transmit phase depend on what happened
before only through the reports already submitted. -/
theorem mainTransmit_congr (mode : Int) (env : Env) (tr tr2 : List Event) (s : rsSettings)
    (h : sent tr = sent tr2) :
    (mainTransmit mode env tr s).exit = (mainTransmit mode env tr2 s).exit ∧
      sent (mainTransmit mode env tr s).trace = sent (mainTransmit mode env tr2 s).trace := by
  have h0 : sent (tr ++ [Event.hidOpen]) = sent (tr2 ++ [Event.hidOpen]) := by
    simp [sent_append, h]
  obtain ⟨e1, t1⟩ := setBlueLight_congr mode env.device _ _ s.fBlueLightLevel h0
  obtain ⟨e2, t2⟩ := setBluePulse_congr mode env.device _ _ s.fBlueLightPulse t1
  obtain ⟨e3, t3⟩ := setRedLight_congr mode env.device _ _ s.fRedLightLevel t2
  obtain ⟨e4, t4⟩ := setRadio_congr mode env.device _ _ s t3
  unfold mainTransmit
  simp only []
  rw [e1, e2, e3, e4]
  split_ifs <;> simp [sent_append, sent, h, h0, t1, t2, t3, t4]

/-- For every command line, either `main` submits no report, or the scan of
the arguments left settings whose category reports, in order, start with the
reports submitted. -/
theorem main_sent_prefix (env : Env) (argv : List CStr) :
    sent (main env argv).trace = [] ∨
      ∃ mode tr s out, locateDevice env = Located.found mode tr ∧
        _parseArguments mode argv initialSettings = Parsed.ret 1 s out ∧
        sent (main env argv).trace <+: categoryReports mode s := by
  by_cases hne : emptyInvocation argv = true
  · left
    simp [main, hne, sent]
  have hne2 : emptyInvocation argv = false := by simpa using hne
  rcases hl : locateDevice env with ⟨mode, tr⟩ | o
  swap
  · left
    have := (locateDevice_failed env o hl).2
    simp [main, hne2, hl, this]
  by_cases hh : _getHIDInterface env true = true
  swap
  · left
    have hs := (locateDevice_found env mode tr hl).1
    simp [main, hne2, hl, mainWithService, hh, sent_append, hs, sent]
  rcases hp : _parseArguments mode argv initialSettings with ⟨v, s, out⟩ | out
  · rcases parseArguments_value _ _ _ _ _ _ hp with hv | hv
    · subst hv
      left
      exact (main_of_parse_usage env argv mode tr hne2 hl hh (Or.inr ⟨s, out, hp⟩)).2.1
    · subst hv
      right
      obtain ⟨hm, hs⟩ := main_eq_transmit env argv mode tr s out hne2 hl hh hp
      obtain ⟨l, h1, h2⟩ := mainTransmit_prefix mode env (tr ++ [Event.plugIn] ++ out) s
      refine ⟨mode, tr, s, out, rfl, hp, ?_⟩
      rw [hm, h1, hs]
      simpa using h2
  · left
    exact (main_of_parse_usage env argv mode tr hne2 hl hh (Or.inl ⟨out, hp⟩)).2.1

/-- C16: fixed transmission order. For every command line, either `main`
submits no report, or the scan of the arguments left settings `s` and the
reports submitted are the first few of the list made of the blue-level, the
blue-pulse, the red-level and the radio report of `s` (each at most once, in
that order). Two command lines that leave the same settings, whatever the order
of their flags, make `main` submit the same reports and return the same
status. -/
theorem main_transmission_order (env : Env) (argv : List CStr) :
    (sent (main env argv).trace = [] ∨
      ∃ mode tr s out, locateDevice env = Located.found mode tr ∧
        _parseArguments mode argv initialSettings = Parsed.ret 1 s out ∧
        sent (main env argv).trace <+: categoryReports mode s) ∧
    (∀ argv2 mode tr s out out2, locateDevice env = Located.found mode tr →
      emptyInvocation argv = false → emptyInvocation argv2 = false →
      _parseArguments mode argv initialSettings = Parsed.ret 1 s out →
      _parseArguments mode argv2 initialSettings = Parsed.ret 1 s out2 →
      sent (main env argv).trace = sent (main env argv2).trace ∧
      (main env argv).exit = (main env argv2).exit) := by
  constructor
  · exact main_sent_prefix env argv
  · intro argv2 mode tr s out out2 hl hne hne2 hp hp2
    by_cases hh : _getHIDInterface env true = true
    · obtain ⟨hm, hs⟩ := main_eq_transmit env argv mode tr s out hne hl hh hp
      obtain ⟨hm2, hs2⟩ := main_eq_transmit env argv2 mode tr s out2 hne2 hl hh hp2
      rw [hm, hm2]
      have := mainTransmit_congr mode env _ _ s (hs.trans hs2.symm)
      exact ⟨this.2, this.1⟩
    · have hs := (locateDevice_found env mode tr hl).1
      simp [main, hne, hne2, hl, mainWithService, hh, sent_append, hs, sent]

theorem main_transmission_order_witness :
    sent (main (envWith 1 acceptAll)
        ["radiosh".toList, "-a".toList, "1000".toList, "-r7".toList, "-b".toList,
          "5".toList]).trace
      = sent (main (envWith 1 acceptAll)
        ["radiosh".toList, "-b5".toList, "-r".toList, "7".toList, "-a1000".toList]).trace ∧
    sent (main (envWith 1 acceptAll)
        ["radiosh".toList, "-a".toList, "1000".toList, "-r7".toList, "-b".toList,
          "5".toList]).trace
      = [[0xA0, 5, 0, 0, 0, 0], [0xA9, 0, 0, 0, 0, 0], [0xC0, 0x12, 0x05, 0xAA, 0, 0]] :=
  ⟨((main_transmission_order (envWith 1 acceptAll)
      ["radiosh".toList, "-a".toList, "1000".toList, "-r7".toList, "-b".toList,
        "5".toList]).2
      ["radiosh".toList, "-b5".toList, "-r".toList, "7".toList, "-a1000".toList]
      0 [Event.matching 1, Event.probe 1] ⟨5, -1, 7, 0x12, 0x05, 0xAA⟩ [] [] rfl
      (by decide) (by decide) (by decide) (by decide)).1,
    by decide⟩

theorem parseArguments_single (mode : Int) (opt : Char) (prog optarg : CStr)
    (s s1 : rsSettings) (out : List Event)
    (hopt : opt = 'b' ∨ opt = 'p' ∨ opt = 'r' ∨ opt = 'a' ∨ opt = 'f')
    (h : parseCase mode opt optarg s = Step.next s1 out) :
    _parseArguments mode [prog, ['-', opt], optarg] s = Parsed.ret 1 s1 out := by
  rcases hopt with ho | ho | ho | ho | ho <;> subst ho <;>
    simp [_parseArguments, getopt, getoptFrom, getoptCluster, optLookup, optstring,
      parseLoop, h]

theorem mainTransmit_only_radio (mode : Int) (env : Env) (tr : List Event) (s : rsSettings)
    (hopen : env.openResult = KERN_SUCCESS) (h1 : s.fBlueLightLevel < 0)
    (h2 : s.fBlueLightPulse < 0) (h3 : s.fRedLightLevel < 0) (h4 : 0 ≤ s.fRadioBand) :
    sent (mainTransmit mode env tr s).trace = sent tr ++ [radioReport mode s] := by
  have h4n : ¬ (s.fRadioBand < 0) := by omega
  have hb : _setBlueLight mode env.device (tr ++ [Event.hidOpen]) s.fBlueLightLevel
      = (KERN_SUCCESS, tr ++ [Event.hidOpen]) := by
    by_cases hm : mode = 0 <;> simp [_setBlueLight, h1, hm]
  have hp : _setBluePulse mode env.device (tr ++ [Event.hidOpen]) s.fBlueLightPulse
      = (KERN_SUCCESS, tr ++ [Event.hidOpen]) := by
    by_cases hm : mode = 0 <;> simp [_setBluePulse, h2, hm]
  have hr : _setRedLight mode env.device (tr ++ [Event.hidOpen]) s.fRedLightLevel
      = (KERN_SUCCESS, tr ++ [Event.hidOpen]) := by
    by_cases hm : mode = 0 <;> simp [_setRedLight, h3, hm]
  have hs := setRadio_sent mode env.device (tr ++ [Event.hidOpen]) s
  rw [if_neg h4n] at hs
  unfold mainTransmit
  simp only [hb, hp, hr]
  simp only [ne_eq, hopen, not_true_eq_false, if_false]
  split_ifs <;> simp [sent_append, sent, hs]

/-- C17: frequency 0 is not special-cased. `-a 0` and `-f 0` store a
non-negative band code and the bytes of the ordinary formula at 0: on
RevisionOne `-a 0` gives raw = 450 (band 0x12, bytes 0x01 0xC2) and `-f 0`
gives raw = 859 (band 0x00, bytes 0x03 0x5B); on RevisionTwo `-a 0` gives
raw = 16300 (band 0x24, bytes 0x3F 0xAC) and `-f 0` gives raw = -3 (band 0x28,
bytes 0xFF 0xFD). With the interface opened, `main` then submits exactly one
report, the radio report: [0xC0, 0x12, 0x01, 0xC2, 0, 0] for `-a 0` on
RevisionOne and [0x81, 0xFF, 0xFD, 0x33, 0x04, 0x00, 0x28] for `-f 0` on
RevisionTwo. -/
theorem frequency_zero (mode : Int) (s : rsSettings) (prog : CStr) :
    (mode = 0 →
      amArg mode 0 = 450 ∧
      parseCase mode 'a' "0".toList s
        = Step.next { s with fRadioBand := 0x12, fRadioFreqHi := 0x01, fRadioFreqLo := 0xC2 }
            [] ∧
      fmArg mode (d2f (atof "0".toList)) = 859 ∧
      parseCase mode 'f' "0".toList s
        = Step.next { s with fRadioBand := 0x00, fRadioFreqHi := 0x03, fRadioFreqLo := 0x5B }
            []) ∧
    (mode ≠ 0 →
      amArg mode 0 = 16300 ∧
      parseCase mode 'a' "0".toList s
        = Step.next { s with fRadioBand := 0x24, fRadioFreqHi := 0x3F, fRadioFreqLo := 0xAC }
            [] ∧
      fmArg mode (d2f (atof "0".toList)) = -3 ∧
      parseCase mode 'f' "0".toList s
        = Step.next { s with fRadioBand := 0x28, fRadioFreqHi := 0xFF, fRadioFreqLo := 0xFD }
            []) ∧
    (∀ env tr, locateDevice env = Located.found mode tr →
      _getHIDInterface env true = true → env.openResult = KERN_SUCCESS →
      (mode = 0 →
        sent (main env [prog, "-a".toList, "0".toList]).trace
          = [[0xC0, 0x12, 0x01, 0xC2, 0, 0]] ∧
        sent (main env [prog, "-f".toList, "0".toList]).trace
          = [[0xC0, 0x00, 0x03, 0x5B, 0, 0]]) ∧
      (mode ≠ 0 →
        sent (main env [prog, "-a".toList, "0".toList]).trace
          = [[0x81, 0x3F, 0xAC, 0xF3, 0x36, 0x00, 0x24]] ∧
        sent (main env [prog, "-f".toList, "0".toList]).trace
          = [[0x81, 0xFF, 0xFD, 0x33, 0x04, 0x00, 0x28]])) := by
  have hat : _atoi "0".toList = some 0 := by decide
  have hdig : isdigit '0' = true := by decide
  have hA1 : amArg 0 0 = 450 := by decide
  have hF1 : fmArg 0 (d2f (atof "0".toList)) = 859 := by decide!
  have hF2v : toInt (fmFloatV2 (d2f (atof "0".toList))) = -3 := by decide!
  have c1 : ∀ t : rsSettings, parseCase 0 'a' "0".toList t
      = Step.next { t with fRadioBand := 0x12, fRadioFreqHi := 0x01, fRadioFreqLo := 0xC2 }
          [] := by
    intro t
    simp only [parseCase, hat, hA1]
    simp
    exact ⟨by decide, by decide⟩
  have c2 : ∀ t : rsSettings, parseCase 0 'f' "0".toList t
      = Step.next { t with fRadioBand := 0x00, fRadioFreqHi := 0x03, fRadioFreqLo := 0x5B }
          [] := by
    intro t
    have e : "0".toList = '0' :: [] := rfl
    rw [e] at hF1 ⊢
    simp only [parseCase, hdig, hF1]
    simp
    exact ⟨by decide, by decide⟩
  have hA2 : mode ≠ 0 → amArg mode 0 = 16300 := by
    intro hm
    simp only [amArg, if_pos hm]
    decide
  have hF2 : mode ≠ 0 → fmArg mode (d2f (atof "0".toList)) = -3 := by
    intro hm
    simp only [fmArg, if_pos hm]
    exact hF2v
  have c3 : mode ≠ 0 → ∀ t : rsSettings, parseCase mode 'a' "0".toList t
      = Step.next { t with fRadioBand := 0x24, fRadioFreqHi := 0x3F, fRadioFreqLo := 0xAC }
          [] := by
    intro hm t
    simp only [parseCase, hat, hA2 hm]
    simp [hm]
    exact ⟨by decide, by decide⟩
  have c4 : mode ≠ 0 → ∀ t : rsSettings, parseCase mode 'f' "0".toList t
      = Step.next { t with fRadioBand := 0x28, fRadioFreqHi := 0xFF, fRadioFreqLo := 0xFD }
          [] := by
    intro hm t
    have h := hF2 hm
    have e : "0".toList = '0' :: [] := rfl
    rw [e] at h ⊢
    simp only [parseCase, hdig, h]
    simp [hm]
    exact ⟨by decide, by decide⟩
  refine ⟨?_, ?_, ?_⟩
  · intro hm
    subst hm
    exact ⟨hA1, c1 s, hF1, c2 s⟩
  · intro hm
    exact ⟨hA2 hm, c3 hm s, hF2 hm, c4 hm s⟩
  · intro env tr hl hh hopen
    have run : ∀ (opt : Char) (s1 : rsSettings),
        (opt = 'b' ∨ opt = 'p' ∨ opt = 'r' ∨ opt = 'a' ∨ opt = 'f') →
        parseCase mode opt "0".toList initialSettings = Step.next s1 [] →
        s1.fBlueLightLevel < 0 → s1.fBlueLightPulse < 0 → s1.fRedLightLevel < 0 →
        0 ≤ s1.fRadioBand →
        sent (main env [prog, ['-', opt], "0".toList]).trace = [radioReport mode s1] := by
      intro opt s1 ho hc h1 h2 h3 h4
      have hp := parseArguments_single mode opt prog "0".toList initialSettings s1 [] ho hc
      obtain ⟨hm, hs⟩ := main_eq_transmit env _ mode tr s1 [] (by simp [emptyInvocation])
        hl hh hp
      rw [hm, mainTransmit_only_radio mode env _ s1 hopen h1 h2 h3 h4, hs]
      rfl
    constructor
    · intro hm
      subst hm
      constructor
      · have := run 'a' _ (by simp) (c1 initialSettings) (by decide) (by decide) (by decide)
          (by decide)
        rw [show "-a".toList = ['-', 'a'] from rfl, this]
        decide
      · have := run 'f' _ (by simp) (c2 initialSettings) (by decide) (by decide) (by decide)
          (by decide)
        rw [show "-f".toList = ['-', 'f'] from rfl, this]
        decide
    · intro hm
      constructor
      · have := run 'a' _ (by simp) (c3 hm initialSettings) (by decide) (by decide)
          (by decide) (by decide)
        rw [show "-a".toList = ['-', 'a'] from rfl, this]
        simp [radioReport, hm, initialSettings, toByte]
      · have := run 'f' _ (by simp) (c4 hm initialSettings) (by decide) (by decide)
          (by decide) (by decide)
        rw [show "-f".toList = ['-', 'f'] from rfl, this]
        simp [radioReport, hm, initialSettings, toByte]

theorem frequency_zero_witness :
    sent (main (envWith 1 acceptAll) ["radiosh".toList, "-a".toList, "0".toList]).trace
        = [[0xC0, 0x12, 0x01, 0xC2, 0, 0]] ∧
      sent (main (envWith 16 acceptAll) ["radiosh".toList, "-f".toList, "0".toList]).trace
        = [[0x81, 0xFF, 0xFD, 0x33, 0x04, 0x00, 0x28]] :=
  ⟨(((frequency_zero 0 initialSettings "radiosh".toList).2.2 (envWith 1 acceptAll)
      [Event.matching 1, Event.probe 1] rfl (by decide) rfl).1 rfl).1,
    (((frequency_zero 1 initialSettings "radiosh".toList).2.2 (envWith 16 acceptAll)
      [Event.matching 1, Event.probe 1, Event.matching 16, Event.probe 16] rfl (by decide)
      rfl).2 (by decide)).2⟩

/-- C18: a pulse request on RevisionTwo, at the level of the whole run. For
every settings value with a pulse that is not unset on RevisionTwo, `main`
returns -1 and submits no red-level and no radio report, even when those
categories are set; once the interface is opened, it submits the blue-level
report if and only if the blue level is set (the blue write comes before the
refusal of the pulse), so it submits nothing at all exactly when the blue level
is unset. -/
theorem pulse_on_v2_run (mode : Int) (env : Env) (s : rsSettings)
    (hm : mode ≠ 0) (hpulse : 0 ≤ s.fBlueLightPulse) :
    (∀ tr, (mainTransmit mode env tr s).exit = -1 ∧
      (sent (mainTransmit mode env tr s).trace = sent tr ∨
        sent (mainTransmit mode env tr s).trace
          = sent tr ++ [blueLevelReport mode s.fBlueLightLevel]) ∧
      (env.openResult = KERN_SUCCESS →
        sent (mainTransmit mode env tr s).trace
          = sent tr ++ (if s.fBlueLightLevel < 0 then []
              else [blueLevelReport mode s.fBlueLightLevel]) ∧
        (sent (mainTransmit mode env tr s).trace = sent tr ↔ s.fBlueLightLevel < 0))) ∧
    (∀ argv tr out, emptyInvocation argv = false →
      locateDevice env = Located.found mode tr → _getHIDInterface env true = true →
      _parseArguments mode argv initialSettings = Parsed.ret 1 s out →
      (main env argv).exit = -1 ∧
      (env.openResult = KERN_SUCCESS →
        sent (main env argv).trace
          = (if s.fBlueLightLevel < 0 then [] else [blueLevelReport mode s.fBlueLightLevel]))) := by
  have key : ∀ tr, (mainTransmit mode env tr s).exit = -1 ∧
      ((env.openResult ≠ KERN_SUCCESS ∧ sent (mainTransmit mode env tr s).trace = sent tr) ∨
        (env.openResult = KERN_SUCCESS ∧ sent (mainTransmit mode env tr s).trace
          = sent tr ++ (if s.fBlueLightLevel < 0 then []
              else [blueLevelReport mode s.fBlueLightLevel]))) := by
    intro tr
    have e0 : sent (tr ++ [Event.hidOpen]) = sent tr := by simp [sent_append, sent]
    have hb := setBlueLight_sent mode env.device (tr ++ [Event.hidOpen]) s.fBlueLightLevel
    have hp := setBluePulse_sent mode env.device
      (_setBlueLight mode env.device (tr ++ [Event.hidOpen]) s.fBlueLightLevel).2
      s.fBlueLightPulse
    have hr := setBluePulse_v2_refuses mode env.device
      (_setBlueLight mode env.device (tr ++ [Event.hidOpen]) s.fBlueLightLevel).2
      s.fBlueLightPulse hm hpulse
    rw [if_pos hm, List.append_nil] at hp
    unfold mainTransmit
    simp only []
    by_cases ho : env.openResult = KERN_SUCCESS
    swap
    · rw [if_pos ho]
      exact ⟨rfl, Or.inl ⟨ho, by simp [sent_append, sent]⟩⟩
    rw [if_neg (not_not.mpr ho)]
    by_cases h1 : (_setBlueLight mode env.device (tr ++ [Event.hidOpen])
        s.fBlueLightLevel).1 = KERN_SUCCESS
    swap
    · rw [if_pos h1]
      exact ⟨rfl, Or.inr ⟨ho, by simp [sent_append, sent, hb, e0]⟩⟩
    rw [if_neg (not_not.mpr h1), if_pos hr]
    exact ⟨rfl, Or.inr ⟨ho, by simp [sent_append, sent, hb, hp, e0]⟩⟩
  constructor
  · intro tr
    obtain ⟨hexit, hcase⟩ := key tr
    refine ⟨hexit, ?_, ?_⟩
    · rcases hcase with ⟨_, h⟩ | ⟨_, h⟩
      · exact Or.inl h
      · by_cases hb : s.fBlueLightLevel < 0
        · left
          simpa [hb] using h
        · right
          simpa [hb] using h
    · intro hopen
      rcases hcase with ⟨hno, _⟩ | ⟨_, h⟩
      · exact absurd hopen hno
      · refine ⟨h, ?_⟩
        rw [h]
        by_cases hb : s.fBlueLightLevel < 0 <;> simp [hb]
  · intro argv tr out hne hl hh hp
    obtain ⟨hmain, hs⟩ := main_eq_transmit env argv mode tr s out hne hl hh hp
    obtain ⟨hexit, hcase⟩ := key (tr ++ [Event.plugIn] ++ out)
    rw [hmain]
    refine ⟨hexit, ?_⟩
    intro hopen
    rcases hcase with ⟨hno, _⟩ | ⟨_, h⟩
    · exact absurd hopen hno
    · rw [h, hs]
      rfl

theorem pulse_on_v2_run_witness :
    (main (envWith 16 acceptAll)
        ["radiosh".toList, "-b5".toList, "-p9".toList, "-r7".toList, "-a1000".toList]).exit
        = -1 ∧
      sent (main (envWith 16 acceptAll)
        ["radiosh".toList, "-b5".toList, "-p9".toList, "-r7".toList, "-a1000".toList]).trace
        = [[0x83, 5, 0, 0, 0, 0, 0]] ∧
      sent (main (envWith 16 acceptAll)
        ["radiosh".toList, "-p9".toList, "-r7".toList, "-a1000".toList]).trace = [] := by
  have h1 := (pulse_on_v2_run 1 (envWith 16 acceptAll) ⟨5, 9, 7, 0x24, 0x4F, 0x4C⟩
    (by decide) (by decide)).2
    ["radiosh".toList, "-b5".toList, "-p9".toList, "-r7".toList, "-a1000".toList]
    [Event.matching 1, Event.probe 1, Event.matching 16, Event.probe 16] []
    (by decide) rfl (by decide) (by decide)
  have h2 := (pulse_on_v2_run 1 (envWith 16 acceptAll) ⟨-1, 9, 7, 0x24, 0x4F, 0x4C⟩
    (by decide) (by decide)).2
    ["radiosh".toList, "-p9".toList, "-r7".toList, "-a1000".toList]
    [Event.matching 1, Event.probe 1, Event.matching 16, Event.probe 16] []
    (by decide) rfl (by decide) (by decide)
  refine ⟨h1.1, ?_, ?_⟩
  · rw [h1.2 rfl]
    decide
  · rw [h2.2 rfl]
    decide

theorem parseCase_frame (mode : Int) (opt : Char) (optarg : CStr) (s s1 : rsSettings)
    (out : List Event) (h : parseCase mode opt optarg s = Step.next s1 out)
    (cat : Nat) (hcat : cat ≠ category opt) :
    categoryFields cat s1 = categoryFields cat s := by
  unfold parseCase at h
  repeat' split at h
  all_goals first
    | (simp at h; done)
    | (simp only [Step.next.injEq] at h
       obtain ⟨h1, _⟩ := h
       subst h1
       subst_vars
       simp [category] at hcat
       simp [categoryFields, hcat])

theorem parseCase_overwrite (mode : Int) (opt : Char) (optarg : CStr) (s s1 t : rsSettings)
    (out : List Event) (h : parseCase mode opt optarg s = Step.next s1 out) :
    ∃ t1, parseCase mode opt optarg t = Step.next t1 out ∧
      categoryFields (category opt) t1 = categoryFields (category opt) s1 := by
  unfold parseCase at h
  repeat' split at h
  all_goals first
    | (simp at h; done)
    | (simp only [Step.next.injEq] at h
       obtain ⟨h1, h2⟩ := h
       subst h1
       subst h2
       subst_vars
       simp_all [parseCase, category, categoryFields])

theorem parseLoop_split (mode : Int) (pre rest : List (Char × CStr)) :
    ∀ (s : rsSettings) (out : List Event) (sF : rsSettings) (outF : List Event),
      parseLoop mode (pre ++ rest) s out = Parsed.ret 1 sF outF →
      ∃ s1 out1, parseLoop mode rest s1 out1 = Parsed.ret 1 sF outF := by
  induction pre with
  | nil =>
    intro s out sF outF h
    exact ⟨s, out, h⟩
  | cons t pre ih =>
    intro s out sF outF h
    obtain ⟨opt, optarg⟩ := t
    simp only [List.cons_append, parseLoop] at h
    split at h
    · exact ih _ _ _ _ h
    · simp at h
    · simp at h

theorem parseLoop_frame (mode : Int) (cat : Nat) (post : List (Char × CStr)) :
    ∀ (s : rsSettings) (out : List Event) (sF : rsSettings) (outF : List Event),
      parseLoop mode post s out = Parsed.ret 1 sF outF →
      (∀ t ∈ post, category t.1 ≠ cat) →
      categoryFields cat sF = categoryFields cat s := by
  induction post with
  | nil =>
    intro s out sF outF h _
    simp only [parseLoop, Parsed.ret.injEq, true_and] at h
    rw [h.1]
  | cons t post ih =>
    intro s out sF outF h hall
    obtain ⟨opt, optarg⟩ := t
    simp only [parseLoop] at h
    split at h
    · rename_i s2 out2 hc
      have h1 := ih _ _ _ _ h (fun t ht => hall t (List.mem_cons_of_mem _ ht))
      have h2 := parseCase_frame mode opt optarg s s2 out2 hc cat
        (fun e => hall (opt, optarg) (List.mem_cons_self _ _) e.symm)
      rw [h1, h2]
    · simp at h
    · simp at h

theorem categoryReports_radio_count (mode : Int) (s : rsSettings) :
    (categoryReports mode s).countP isRadioReport ≤ 1 := by
  unfold categoryReports blueLevelReport bluePulseReport redLevelReport radioReport
  by_cases hm : mode = 0 <;> by_cases h1 : s.fBlueLightLevel < 0 <;>
    by_cases h2 : s.fBlueLightPulse < 0 <;> by_cases h3 : s.fRedLightLevel < 0 <;>
    by_cases h4 : s.fRadioBand < 0 <;> by_cases h5 : s.fRedLightLevel > 0 <;>
    by_cases h6 : s.fRadioBand = 36 <;>
    simp [hm, h1, h2, h3, h4, h5, h6, List.countP_cons, isRadioReport]

/-- C19: last flag wins. Processing a flag leaves the fields of every other
category unchanged, and what it writes in its own category does not depend on
the settings it starts from. Hence, when the scan of a command line succeeds,
the fields of a category (the level of a light, or the band code and the two
frequency bytes of the radio, written by `-a` and `-f` alike) are exactly
those computed from the last flag of that category alone. And `main` submits
at most one radio report. -/
theorem last_flag_wins (mode : Int) :
    (∀ opt optarg s s1 out, parseCase mode opt optarg s = Step.next s1 out →
      ∀ cat, cat ≠ category opt → categoryFields cat s1 = categoryFields cat s) ∧
    (∀ opt optarg s s1 out t, parseCase mode opt optarg s = Step.next s1 out →
      ∃ t1, parseCase mode opt optarg t = Step.next t1 out ∧
        categoryFields (category opt) t1 = categoryFields (category opt) s1) ∧
    (∀ argv pre opt optarg post s sF outF,
      getopt argv optstring = pre ++ (opt, optarg) :: post →
      (∀ t ∈ post, category t.1 ≠ category opt) →
      _parseArguments mode argv s = Parsed.ret 1 sF outF →
      ∃ s1 out1, parseCase mode opt optarg initialSettings = Step.next s1 out1 ∧
        categoryFields (category opt) sF = categoryFields (category opt) s1) ∧
    (∀ env argv, (sent (main env argv).trace).countP isRadioReport ≤ 1) := by
  refine ⟨?_, ?_, ?_, ?_⟩
  · intro opt optarg s s1 out h cat hcat
    exact parseCase_frame mode opt optarg s s1 out h cat hcat
  · intro opt optarg s s1 out t h
    exact parseCase_overwrite mode opt optarg s s1 t out h
  · intro argv pre opt optarg post s sF outF hg hpost hp
    unfold _parseArguments at hp
    split at hp
    · simp at hp
    rw [hg] at hp
    obtain ⟨s1, out1, h1⟩ := parseLoop_split mode pre _ _ _ _ _ hp
    simp only [parseLoop] at h1
    split at h1
    · rename_i s2 out2 hc
      have hf := parseLoop_frame mode (category opt) post _ _ _ _ h1 hpost
      obtain ⟨t1, ht1, ht2⟩ := parseCase_overwrite mode opt optarg s1 s2 initialSettings out2 hc
      exact ⟨t1, out2, ht1, by rw [hf, ht2]⟩
    · simp at h1
    · simp at h1
  · intro env argv
    rcases main_sent_prefix env argv with h | ⟨m, tr, s, out, _, _, hpre⟩
    · rw [h]
      simp
    · exact le_trans (List.Sublist.countP_le _ hpre.sublist)
        (categoryReports_radio_count m s)

theorem last_flag_wins_witness :
    _parseArguments 0
        ["radiosh".toList, "-a".toList, "1000".toList, "-b3".toList, "-f".toList,
          "88.5".toList, "-b9".toList] initialSettings
        = Parsed.ret 1 ⟨9, -1, -1, 0x00, 0x1F, 0x03⟩ [] ∧
      (∃ s1 out1, parseCase 0 'f' "88.5".toList initialSettings = Step.next s1 out1 ∧
        categoryFields (category 'f') ⟨9, -1, -1, 0x00, 0x1F, 0x03⟩
          = categoryFields (category 'f') s1) ∧
      (∃ s1 out1, parseCase 0 'b' "9".toList initialSettings = Step.next s1 out1 ∧
        categoryFields (category 'b') ⟨9, -1, -1, 0x00, 0x1F, 0x03⟩
          = categoryFields (category 'b') s1) :=
  ⟨by decide!,
    (last_flag_wins 0).2.2.1
      ["radiosh".toList, "-a".toList, "1000".toList, "-b3".toList, "-f".toList,
        "88.5".toList, "-b9".toList]
      [('a', "1000".toList), ('b', "3".toList)] 'f' "88.5".toList [('b', "9".toList)]
      initialSettings ⟨9, -1, -1, 0x00, 0x1F, 0x03⟩ [] (by decide) (by decide) (by decide!),
    (last_flag_wins 0).2.2.1
      ["radiosh".toList, "-a".toList, "1000".toList, "-b3".toList, "-f".toList,
        "88.5".toList, "-b9".toList]
      [('a', "1000".toList), ('b', "3".toList), ('f', "88.5".toList)] 'b' "9".toList []
      initialSettings ⟨9, -1, -1, 0x00, 0x1F, 0x03⟩ [] (by decide) (by decide) (by decide!)⟩

end Radiosh
